import Mathlib

/-!
# STEPS: surface-reaction definitions (`steps/model/sreac.cpp`)

A shallow embedding of the class `steps::model::SReac`, and of the members of
`steps::wmdirect::KProc` (`steps/wmdirect/kproc.hpp`) that have a body.  Objects
are records, member functions are functions from the state before the call to
the state at the moment control leaves the call, together with what was raised,
if anything.

Conventions
* A pointer is a natural number, `0` being the null pointer.
* `double` is the type `Double` below: the code only stores and compares rate
  constants, so only the ordering of IEEE values is modelled (NaN included).
* An argument of type `vector<Spec *> const &` is a `VecRef`: the vector it
  refers to may be one of the reaction's own, and is read when the code reads it.
* The classes `Surfsys`, `Spec` and `Model` live in other files (`surfsys.hpp`,
  `spec.hpp`, `model.hpp`).  Their member functions that `SReac` calls are the
  fields of `Env`.
-/

set_option linter.dupNamespace false

namespace Steps

/-! ## Values of type `double` -/

/-- The values a C++ `double` can hold, up to what comparison can tell apart:
a NaN, the two infinities, and the finite values (as rationals; the two signed
zeros compare equal and are both `fin 0`). -/
inductive Double where
  | nan
  | negInf
  | fin (q : ℚ)
  | posInf
  deriving DecidableEq

namespace Double

/-- The literal `0.0`. -/
def zero : Double := fin 0

/-- The operator `a < b` on doubles.  A comparison with NaN is false. -/
def lt : Double → Double → Bool
  | nan, _ => false
  | _, nan => false
  | negInf, negInf => false
  | negInf, _ => true
  | _, negInf => false
  | posInf, _ => false
  | fin _, posInf => true
  | fin a, fin b => decide (a < b)

/-- The operator `a >= b` on doubles.  A comparison with NaN is false. -/
def ge : Double → Double → Bool
  | nan, _ => false
  | _, nan => false
  | _, negInf => true
  | negInf, _ => false
  | posInf, _ => true
  | fin _, posInf => false
  | fin a, fin b => decide (b ≤ a)

end Double

/-! ## Ways of leaving a call other than by returning -/

/-- What a call can raise. `ArgErr` is `steps::ArgErr`; `exc` is any other C++
exception; `assertFail` is a failed `assert` (the process aborts); `nullDeref` is
a member call through a null pointer (undefined behaviour). -/
inductive Err where
  | ArgErr (msg : String)
  | exc (what : String)
  | assertFail
  | nullDeref
  deriving DecidableEq

/-- An `Err` after which the program does not go on: the caller can catch an
exception, but neither an abort nor undefined behaviour. -/
def Err.fatal : Err → Bool
  | .ArgErr _ => false
  | .exc _ => false
  | .assertFail => true
  | .nullDeref => true

/-- The macro `assert(cond)` of `<cassert>`: nothing when `NDEBUG` is defined or
the condition holds, an abort otherwise. -/
def cassert (ndebug : Bool) (cond : Bool) : Option Err :=
  if ndebug || cond then none else some Err.assertFail

/-! ## The object -/

/-- The data members of `SReac`, in the order of the constructor's initialiser
list.  `pModel` and `pSurfsys` are pointers, the five vectors hold `Spec *`. The
declaration of `pOrder` is in the header; it is taken as a natural number. -/
structure SReac where
  pID : String
  pModel : Nat
  pSurfsys : Nat
  pOuter : Bool
  pVLHS : List Nat
  pSLHS : List Nat
  pIRHS : List Nat
  pSRHS : List Nat
  pORHS : List Nat
  pOrder : Nat
  pKcst : Double
  deriving DecidableEq

/-- A reaction together with the state (of type `σ`) of the `Surfsys` object it
was constructed for.  The reaction holds only a pointer to that object. -/
structure World (σ : Type) where
  reac : SReac
  surfsys : σ

/-- The outcome of a call: the objects as they are when control leaves the call,
and what was raised (`none` for a normal return). -/
structure Res (σ : Type) where
  world : World σ
  raised : Option Err

/-- Run `f` on the outcome of an earlier statement, unless that one raised. -/
def Res.andThen {σ : Type} (r : Res σ) (f : World σ → Res σ) : Res σ :=
  match r.raised with
  | none => f r.world
  | some _ => r

/-- What `sreac.cpp` uses of the classes `Surfsys` and `Spec`, whose code is in
other files.  `ndebug` says whether the translation unit is compiled with `NDEBUG`.
`specModel` is `Spec::getModel`, `getModel` is `Surfsys::getModel`, and the three
handlers are `Surfsys::_handleSReacAdd`, `_handleSReacDel` and
`_handleSReacIDChange`: each maps the state of the `Surfsys` and its arguments to
the state it leaves and to what it raised. -/
structure Env (σ : Type) where
  ndebug : Bool
  specModel : Nat → Nat
  getModel : σ → Nat
  handleSReacAdd : σ → SReac → σ × Option Err
  handleSReacDel : σ → SReac → σ × Option Err
  handleSReacIDChange : σ → String → String → σ × Option Err

/-- What an argument of type `vector<Spec *> const &` refers to when a member
function of a reaction is called: a vector outside the reaction, which the call
cannot change, or one of the five vectors of the reaction itself. -/
inductive VecRef where
  | ext (v : List Nat)
  | pVLHS
  | pSLHS
  | pIRHS
  | pSRHS
  | pORHS
  deriving DecidableEq

/-- The contents of the vector a reference refers to, at a moment when the
reaction is in state `r`. -/
def VecRef.read (a : VecRef) (r : SReac) : List Nat :=
  match a with
  | .ext v => v
  | .pVLHS => r.pVLHS
  | .pSLHS => r.pSLHS
  | .pIRHS => r.pIRHS
  | .pSRHS => r.pSRHS
  | .pORHS => r.pORHS

namespace SReac

variable {σ : Type}

/-- Modelled from the spec: the accessor `getVLHS` is declared in the header
`sreac.hpp`, which is absent; it returns the volume-reactants vector. -/
def getVLHS (r : SReac) : List Nat := r.pVLHS

/-- Modelled from the spec: the accessor `getSLHS` is declared in the header
`sreac.hpp`, which is absent; it returns the surface-reactants vector. -/
def getSLHS (r : SReac) : List Nat := r.pSLHS

/-- Modelled from the spec: the accessor `getIRHS` is declared in the header
`sreac.hpp`, which is absent; it returns the inner-product vector. -/
def getIRHS (r : SReac) : List Nat := r.pIRHS

/-- Modelled from the spec: the accessor `getSRHS` is declared in the header
`sreac.hpp`, which is absent; it returns the surface-product vector. -/
def getSRHS (r : SReac) : List Nat := r.pSRHS

/-- Modelled from the spec: the accessor `getORHS` is declared in the header
`sreac.hpp`, which is absent; it returns the outer-product vector. -/
def getORHS (r : SReac) : List Nat := r.pORHS

/-- The loop shared by the five vector setters, started on the cleared vector
`dst`: for each element of the argument, `assert` that its model is `pModel`,
then `push_back` it.  Returns the vector as it is when the loop is left. -/
def pushChecked (e : Env σ) (pModel : Nat) : List Nat → List Nat → List Nat × Option Err
  | dst, [] => (dst, none)
  | dst, x :: rest =>
    match cassert e.ndebug (e.specModel x == pModel) with
    | some err => (dst, some err)
    | none => pushChecked e pModel (dst ++ [x]) rest

/-- `SReac::setVLHS` (sreac.cpp 147-158).  The argument is a reference, and
`pVLHS.clear()` runs before the argument is read: what the loop copies is what the
argument holds in the object with `pVLHS` emptied. -/
def setVLHS (e : Env σ) (vlhs : VecRef) (w : World σ) : Res σ :=
  match cassert e.ndebug (w.reac.pSurfsys != 0) with
  | some err => ⟨w, some err⟩
  | none =>
    match pushChecked e w.reac.pModel [] (vlhs.read { w.reac with pVLHS := [] }) with
    | (v, some err) => ⟨{ w with reac := { w.reac with pVLHS := v } }, some err⟩
    | (v, none) =>
      ⟨{ w with reac := { w.reac with pVLHS := v, pOrder := v.length + w.reac.pSLHS.length } },
        none⟩

/-- `SReac::setSLHS` (sreac.cpp 162-173).  The argument is a reference, and
`pSLHS.clear()` runs before the argument is read: what the loop copies is what the
argument holds in the object with `pSLHS` emptied. -/
def setSLHS (e : Env σ) (slhs : VecRef) (w : World σ) : Res σ :=
  match cassert e.ndebug (w.reac.pSurfsys != 0) with
  | some err => ⟨w, some err⟩
  | none =>
    match pushChecked e w.reac.pModel [] (slhs.read { w.reac with pSLHS := [] }) with
    | (v, some err) => ⟨{ w with reac := { w.reac with pSLHS := v } }, some err⟩
    | (v, none) =>
      ⟨{ w with reac := { w.reac with pSLHS := v, pOrder := w.reac.pVLHS.length + v.length } },
        none⟩

/-- `SReac::setIRHS` (sreac.cpp 177-187).  The argument is a reference, and
`pIRHS.clear()` runs before the argument is read: what the loop copies is what the
argument holds in the object with `pIRHS` emptied. -/
def setIRHS (e : Env σ) (irhs : VecRef) (w : World σ) : Res σ :=
  match cassert e.ndebug (w.reac.pSurfsys != 0) with
  | some err => ⟨w, some err⟩
  | none =>
    match pushChecked e w.reac.pModel [] (irhs.read { w.reac with pIRHS := [] }) with
    | (v, r) => ⟨{ w with reac := { w.reac with pIRHS := v } }, r⟩

/-- `SReac::setSRHS` (sreac.cpp 191-201).  The argument is a reference, and
`pSRHS.clear()` runs before the argument is read: what the loop copies is what the
argument holds in the object with `pSRHS` emptied. -/
def setSRHS (e : Env σ) (srhs : VecRef) (w : World σ) : Res σ :=
  match cassert e.ndebug (w.reac.pSurfsys != 0) with
  | some err => ⟨w, some err⟩
  | none =>
    match pushChecked e w.reac.pModel [] (srhs.read { w.reac with pSRHS := [] }) with
    | (v, r) => ⟨{ w with reac := { w.reac with pSRHS := v } }, r⟩

/-- `SReac::setORHS` (sreac.cpp 205-215).  The argument is a reference, and
`pORHS.clear()` runs before the argument is read: what the loop copies is what the
argument holds in the object with `pORHS` emptied. -/
def setORHS (e : Env σ) (orhs : VecRef) (w : World σ) : Res σ :=
  match cassert e.ndebug (w.reac.pSurfsys != 0) with
  | some err => ⟨w, some err⟩
  | none =>
    match pushChecked e w.reac.pModel [] (orhs.read { w.reac with pORHS := [] }) with
    | (v, r) => ⟨{ w with reac := { w.reac with pORHS := v } }, r⟩

/-- `SReac::setKcst` (sreac.cpp 219-229). -/
def setKcst (e : Env σ) (kcst : Double) (w : World σ) : Res σ :=
  match cassert e.ndebug (w.reac.pSurfsys != 0) with
  | some err => ⟨w, some err⟩
  | none =>
    if Double.lt kcst Double.zero then
      ⟨w, some (Err.ArgErr "Surface reaction constant can't be negative")⟩
    else ⟨{ w with reac := { w.reac with pKcst := kcst } }, none⟩

/-- `SReac::setID` (sreac.cpp 117-127).  The handler is called through
`pSurfsys`; a null `pSurfsys` gets that far only when `assert` is compiled out. -/
def setID (e : Env σ) (id : String) (w : World σ) : Res σ :=
  match cassert e.ndebug (w.reac.pSurfsys != 0) with
  | some err => ⟨w, some err⟩
  | none =>
    if w.reac.pSurfsys == 0 then ⟨w, some Err.nullDeref⟩
    else
      match e.handleSReacIDChange w.surfsys w.reac.pID id with
      | (c, some err) => ⟨{ w with surfsys := c }, some err⟩
      | (c, none) => ⟨{ reac := { w.reac with pID := id }, surfsys := c }, none⟩

/-- `SReac::setInner` (sreac.cpp 131-135). -/
def setInner (e : Env σ) (inner : Bool) (w : World σ) : Res σ :=
  match cassert e.ndebug (w.reac.pSurfsys != 0) with
  | some err => ⟨w, some err⟩
  | none => ⟨{ w with reac := { w.reac with pOuter := !inner } }, none⟩

/-- `SReac::setOuter` (sreac.cpp 139-143). -/
def setOuter (e : Env σ) (outer : Bool) (w : World σ) : Res σ :=
  match cassert e.ndebug (w.reac.pSurfsys != 0) with
  | some err => ⟨w, some err⟩
  | none => ⟨{ w with reac := { w.reac with pOuter := outer } }, none⟩

/-- `SReac::_handleSelfDelete` (sreac.cpp 101-113): the container is told first,
through `pSurfsys` and without a check of that pointer; then the members are
reset, in the order kcst, order, ORHS, SRHS, IRHS, SLHS, VLHS, surfsys, model. -/
def _handleSelfDelete (e : Env σ) (w : World σ) : Res σ :=
  if w.reac.pSurfsys == 0 then ⟨w, some Err.nullDeref⟩
  else
    match e.handleSReacDel w.surfsys w.reac with
    | (c, some err) => ⟨{ w with surfsys := c }, some err⟩
    | (c, none) =>
      ⟨{ reac := { w.reac with
                    pKcst := Double.zero, pOrder := 0, pORHS := [], pSRHS := [], pIRHS := [],
                    pSLHS := [], pVLHS := [], pSurfsys := 0, pModel := 0 },
         surfsys := c }, none⟩

/-- The body of the destructor `SReac::~SReac` (sreac.cpp 93-97). -/
def destructor (e : Env σ) (w : World σ) : Res σ :=
  if w.reac.pSurfsys == 0 then ⟨w, none⟩
  else _handleSelfDelete e w

/-- The constructor `SReac::SReac` (sreac.cpp 50-89), called with the pointer
`surfsys` while the `Surfsys` object is in state `c`.  On a raise, `world.reac`
is the object under construction as it is at that moment.  The five vector
arguments cannot refer to members of the object that is only now being built,
so they reach the setters as vectors outside the reaction. -/
def SReac (e : Env σ) (id : String) (surfsys : Nat) (vlhs slhs irhs srhs orhs : List Nat)
    (kcst : Double) (c : σ) : Res σ :=
  let r0 : Steps.SReac :=
    { pID := id, pModel := 0, pSurfsys := surfsys, pOuter := true, pVLHS := [], pSLHS := [],
      pIRHS := [], pSRHS := [], pORHS := [], pOrder := 0, pKcst := kcst }
  if r0.pSurfsys == 0 then
    ⟨⟨r0, c⟩, some (Err.ArgErr "No surfsys provided to SReac initializer function")⟩
  else if Double.lt r0.pKcst Double.zero then
    ⟨⟨r0, c⟩, some (Err.ArgErr "Surface reaction constant can't be negatove")⟩
  else
    let r1 : Steps.SReac := { r0 with pModel := e.getModel c }
    match cassert e.ndebug (r1.pModel != 0) with
    | some err => ⟨⟨r1, c⟩, some err⟩
    | none =>
      ((((((setVLHS e (VecRef.ext vlhs) ⟨r1, c⟩).andThen (setSLHS e (VecRef.ext slhs))).andThen
        (setIRHS e (VecRef.ext irhs))).andThen (setSRHS e (VecRef.ext srhs))).andThen
          (setORHS e (VecRef.ext orhs))).andThen fun w =>
          match e.handleSReacAdd w.surfsys w.reac with
          | (c1, r) => ⟨{ w with surfsys := c1 }, r⟩)

/-- The inner loop of `getAllSpecs`: scan `specs` for `x`, stopping at the first
hit; the result is the flag `first_occ`. -/
def firstOcc (x : Nat) : List Nat → Bool
  | [] => true
  | s :: rest => if s == x then false else firstOcc x rest

/-- One of the five outer loops of `getAllSpecs`: for each element of the source
vector, `push_back` it on `specs` when the inner loop left `first_occ` true. -/
def addSpecs : List Nat → List Nat → List Nat
  | specs, [] => specs
  | specs, x :: rest => addSpecs (if firstOcc x specs = true then specs ++ [x] else specs) rest

/-- `SReac::getAllSpecs` (sreac.cpp 233-324). -/
def getAllSpecs (r : Steps.SReac) : List Nat :=
  addSpecs (addSpecs (addSpecs (addSpecs (addSpecs [] (getVLHS r)) (getSLHS r)) (getIRHS r))
    (getSRHS r)) (getORHS r)

end SReac

/-! ## Sequences of calls -/

/-- A call of a member function on an existing reaction, with its arguments. -/
inductive Call where
  | setVLHS (vlhs : VecRef)
  | setSLHS (slhs : VecRef)
  | setIRHS (irhs : VecRef)
  | setSRHS (srhs : VecRef)
  | setORHS (orhs : VecRef)
  | setKcst (kcst : Double)
  | setID (id : String)
  | setInner (inner : Bool)
  | setOuter (outer : Bool)
  | destructor
  | handleSelfDelete

/-- The member function a `Call` stands for, applied to its arguments. -/
def Call.run {σ : Type} (e : Env σ) : Call → World σ → Res σ
  | .setVLHS v => SReac.setVLHS e v
  | .setSLHS v => SReac.setSLHS e v
  | .setIRHS v => SReac.setIRHS e v
  | .setSRHS v => SReac.setSRHS e v
  | .setORHS v => SReac.setORHS e v
  | .setKcst k => SReac.setKcst e k
  | .setID id => SReac.setID e id
  | .setInner b => SReac.setInner e b
  | .setOuter b => SReac.setOuter e b
  | .destructor => SReac.destructor e
  | .handleSelfDelete => SReac._handleSelfDelete e

/-- Control came back to the caller: the call returned, or it threw an exception
(which the caller can catch and go on from). -/
def Res.survives {σ : Type} (r : Res σ) : Bool :=
  match r.raised with
  | none => true
  | some err => !err.fatal

/-- The states a reaction can be observed in: the one a successful construction
leaves, and the one left by any call on such a state that came back to the
caller, whether it succeeded or threw. -/
inductive Reachable {σ : Type} (e : Env σ) : World σ → Prop
  | construct (id : String) (surfsys : Nat) (vlhs slhs irhs srhs orhs : List Nat)
      (kcst : Double) (c : σ)
      (h : (SReac.SReac e id surfsys vlhs slhs irhs srhs orhs kcst c).raised = none) :
      Reachable e (SReac.SReac e id surfsys vlhs slhs irhs srhs orhs kcst c).world
  | call (w : World σ) (k : Call) (hw : Reachable e w) (h : (k.run e w).survives = true) :
      Reachable e (k.run e w).world

/-! ## A sample container -/

/-- State of the sample container: the ids registered with it and the number of
times its delete handler ran. -/
structure Registry where
  ids : List String
  deleted : Nat
  deriving DecidableEq

/-- A sample instance of `Env`, used to evaluate the definitions on concrete
inputs.  Species `100 * m + k` belongs to model `m`; the container belongs to
model `1`, refuses an id that is already registered, and counts deletions. -/
def sampleEnv (ndebug : Bool) : Env Registry where
  ndebug := ndebug
  specModel := fun s => s / 100
  getModel := fun _ => 1
  handleSReacAdd := fun c r =>
    if r.pID ∈ c.ids then (c, some (Err.ArgErr "id in use"))
    else ({ c with ids := r.pID :: c.ids }, none)
  handleSReacDel := fun c r => ({ ids := c.ids.erase r.pID, deleted := c.deleted + 1 }, none)
  handleSReacIDChange := fun c o n =>
    if n ∈ c.ids then (c, some (Err.ArgErr "id in use"))
    else ({ c with ids := n :: c.ids.erase o }, none)

/-- A reaction built in the sample container: `101 + 102 -> 103` on the surface
side, rate constant `2`. -/
def sampleWorld (ndebug : Bool) : World Registry :=
  (SReac.SReac (sampleEnv ndebug) "R1" 7 [101] [102, 102] [103] [] [101] (Double.fin 2)
    ⟨[], 0⟩).world

/-- Following the spec's words ("preserving first-occurrence order", "skipping
species already seen"): keep the head, and drop every later repeat of it from
what the rest of the list contributes. -/
def firstOccurrenceDedup : List Nat → List Nat
  | [] => []
  | x :: xs => x :: (firstOccurrenceDedup xs).filter (fun y => y != x)

/-- The concatenation of the five vectors of a reaction, in the order volume
reactants, surface reactants, inner product, surface product, outer product. -/
def SReac.allSides (r : Steps.SReac) : List Nat :=
  r.pVLHS ++ r.pSLHS ++ r.pIRHS ++ r.pSRHS ++ r.pORHS

/-- The object that a construction running to its end has built. -/
def SReac.built {σ : Type} (e : Env σ) (id : String) (surfsys : Nat)
    (vlhs slhs irhs srhs orhs : List Nat) (kcst : Double) (c : σ) : Steps.SReac :=
  { pID := id, pModel := e.getModel c, pSurfsys := surfsys, pOuter := true, pVLHS := vlhs,
    pSLHS := slhs, pIRHS := irhs, pSRHS := srhs, pORHS := orhs,
    pOrder := vlhs.length + slhs.length, pKcst := kcst }

/-! ## The changes a call can make -/

/-- How a call that came back to its caller can have changed the members of a
reaction: not at all, or in one of the ways listed. -/
inductive ReacStep {σ : Type} (e : Env σ) : SReac → SReac → Prop
  | same (r : SReac) : ReacStep e r r
  | vlhs (r : SReac) (v : List Nat)
      (h : e.ndebug = true ∨ ∀ x ∈ v, e.specModel x = r.pModel) :
      ReacStep e r { r with pVLHS := v, pOrder := v.length + r.pSLHS.length }
  | slhs (r : SReac) (v : List Nat)
      (h : e.ndebug = true ∨ ∀ x ∈ v, e.specModel x = r.pModel) :
      ReacStep e r { r with pSLHS := v, pOrder := r.pVLHS.length + v.length }
  | irhs (r : SReac) (v : List Nat)
      (h : e.ndebug = true ∨ ∀ x ∈ v, e.specModel x = r.pModel) :
      ReacStep e r { r with pIRHS := v }
  | srhs (r : SReac) (v : List Nat)
      (h : e.ndebug = true ∨ ∀ x ∈ v, e.specModel x = r.pModel) :
      ReacStep e r { r with pSRHS := v }
  | orhs (r : SReac) (v : List Nat)
      (h : e.ndebug = true ∨ ∀ x ∈ v, e.specModel x = r.pModel) :
      ReacStep e r { r with pORHS := v }
  | kcst (r : SReac) (k : Double) (h : Double.lt k Double.zero = false) :
      ReacStep e r { r with pKcst := k }
  | id (r : SReac) (s : String) : ReacStep e r { r with pID := s }
  | outer (r : SReac) (b : Bool) : ReacStep e r { r with pOuter := b }
  | cleared (r : SReac) :
      ReacStep e r { r with
        pKcst := Double.zero, pOrder := 0, pORHS := [], pSRHS := [], pIRHS := [], pSLHS := [],
        pVLHS := [], pSurfsys := 0, pModel := 0 }

/-- Every species held in the five vectors of `r` belongs to the model that `r`
points to. -/
def SReac.speciesInModel {σ : Type} (e : Env σ) (r : Steps.SReac) : Prop :=
  ∀ x ∈ r.allSides, e.specModel x = r.pModel

/-- A second sample container: its state is the number of times its handler
`_handleSReacAdd` has run.  All its handlers return normally. -/
def countingEnv : Env Nat where
  ndebug := false
  specModel := fun s => s / 100
  getModel := fun _ => 1
  handleSReacAdd := fun n _ => (n + 1, none)
  handleSReacDel := fun n _ => (n, none)
  handleSReacIDChange := fun n _ _ => (n, none)

/-! ## Kinetic processes (`steps/wmdirect/kproc.hpp`) -/

/-- The data members of `KProc`: the extent counter `rExtent` and the schedule
index `pSchedIDX`.  Both are of type `uint`, a typedef of `steps/common.h`; its
values are taken as natural numbers. -/
structure KProc where
  rExtent : Nat
  pSchedIDX : Nat
  deriving DecidableEq

namespace KProc

/-- `KProc::schedIDX` (kproc.hpp 91-92), a `const` member function: the value it
returns, and the object as it is after the call. -/
def schedIDX (k : KProc) : Nat × KProc := (k.pSchedIDX, k)

/-- `KProc::setSchedIDX` (kproc.hpp 94-95). -/
def setSchedIDX (idx : Nat) (k : KProc) : KProc := { k with pSchedIDX := idx }

/-- Modelled from the spec: the falling factorial `n (n - 1) ... (n - k + 1)`,
the number of ways to draw `k` molecules in a row out of `n`; the spec builds
`h()` from it ("falling factorials per species"). -/
def fallingFactorial (n : Nat) : Nat → Nat
  | 0 => 1
  | k + 1 => fallingFactorial n k * (n - k)

/-- Modelled from the spec: `KProc::h` is pure virtual in `kproc.hpp` and none of
its overrides is among the sources.  `lhs` is the reactant side (one entry per
molecule consumed, so a species needed twice occurs twice) and `cnt` gives the
current count of each species.  The result is 0 if some species has fewer
molecules than the reactant side needs of it; otherwise it is the product, over
the distinct reactant species, of the falling factorial of the count by the
multiplicity.  The declared result type is `double`; the spec speaks of a
combinatorial count, which is what is modelled. -/
def h (lhs : List Nat) (cnt : Nat → Nat) : Nat :=
  if lhs.any (fun s => decide (cnt s < lhs.count s)) = true then 0
  else ((firstOccurrenceDedup lhs).map (fun s => fallingFactorial (cnt s) (lhs.count s))).prod

end KProc

/-! ## Lemmas on `getAllSpecs` -/

theorem firstOcc_eq_true_iff (x : Nat) (specs : List Nat) :
    SReac.firstOcc x specs = true ↔ x ∉ specs := by
  induction specs with
  | nil => simp [SReac.firstOcc]
  | cons s rest ih =>
    by_cases h : s = x
    · simp [SReac.firstOcc, h]
    · have h2 : ¬ x = s := fun h3 => h h3.symm
      simp [SReac.firstOcc, h, h2, ih]

theorem addSpecs_append (specs a b : List Nat) :
    SReac.addSpecs specs (a ++ b) = SReac.addSpecs (SReac.addSpecs specs a) b := by
  induction a generalizing specs with
  | nil => simp [SReac.addSpecs]
  | cons x rest ih => simp [SReac.addSpecs, ih]

theorem addSpecs_eq (specs src : List Nat) :
    SReac.addSpecs specs src
      = specs ++ (firstOccurrenceDedup src).filter (fun y => decide (y ∉ specs)) := by
  induction src generalizing specs with
  | nil => simp [SReac.addSpecs, firstOccurrenceDedup]
  | cons x rest ih =>
    by_cases hx : x ∈ specs
    · have h1 : ¬ (SReac.firstOcc x specs = true) := by
        rw [firstOcc_eq_true_iff]; simpa using hx
      simp only [SReac.addSpecs, h1, if_false, ih, firstOccurrenceDedup]
      congr 1
      simp only [List.filter_cons, hx, not_true_eq_false, decide_False, List.filter_filter]
      simp only [Bool.false_eq_true, if_false]
      apply List.filter_congr
      intro y _
      by_cases hy : y ∈ specs
      · simp [hy]
      · have : y ≠ x := fun h => hy (h ▸ hx)
        simp [hy, this]
    · have h1 : SReac.firstOcc x specs = true := (firstOcc_eq_true_iff x specs).2 hx
      simp only [SReac.addSpecs, h1, if_true, ih, firstOccurrenceDedup]
      simp only [List.filter_cons, hx, not_false_eq_true, decide_True, List.filter_filter,
        if_true, List.append_assoc, List.singleton_append]
      congr 2
      apply List.filter_congr
      intro y _
      by_cases hy : y ∈ specs
      · simp [hy]
      · by_cases hyx : y = x
        · simp [hyx]
        · simp [hy, hyx]

theorem getAllSpecs_eq (r : SReac) :
    SReac.getAllSpecs r = firstOccurrenceDedup r.allSides := by
  unfold SReac.getAllSpecs SReac.allSides SReac.getVLHS SReac.getSLHS SReac.getIRHS
    SReac.getSRHS SReac.getORHS
  rw [← addSpecs_append, ← addSpecs_append, ← addSpecs_append, ← addSpecs_append, addSpecs_eq]
  simp

theorem mem_firstOccurrenceDedup (x : Nat) (l : List Nat) :
    x ∈ firstOccurrenceDedup l ↔ x ∈ l := by
  induction l with
  | nil => simp [firstOccurrenceDedup]
  | cons a rest ih =>
    by_cases h : x = a
    · simp [firstOccurrenceDedup, h]
    · simp [firstOccurrenceDedup, h, ih]

theorem nodup_firstOccurrenceDedup (l : List Nat) : (firstOccurrenceDedup l).Nodup := by
  induction l with
  | nil => simp [firstOccurrenceDedup]
  | cons a rest ih =>
    simp only [firstOccurrenceDedup, List.nodup_cons]
    refine ⟨?_, ih.filter _⟩
    simp [List.mem_filter]

theorem pairwise_firstOccurrenceDedup (l : List Nat) :
    (firstOccurrenceDedup l).Pairwise (fun a b => l.indexOf a < l.indexOf b) := by
  induction l with
  | nil => simp [firstOccurrenceDedup]
  | cons x rest ih =>
    simp only [firstOccurrenceDedup, List.pairwise_cons]
    constructor
    · intro b hb
      have hne : x ≠ b := by
        intro h
        simp [List.mem_filter, h] at hb
      rw [List.indexOf_cons_self, List.indexOf_cons_ne _ hne]
      exact Nat.succ_pos _
    · refine List.Pairwise.imp_of_mem ?_ (List.Pairwise.filter _ ih)
      intro a b ha hb hab
      have hax : x ≠ a := by
        intro h
        simp [List.mem_filter, h] at ha
      have hbx : x ≠ b := by
        intro h
        simp [List.mem_filter, h] at hb
      rw [List.indexOf_cons_ne _ hax, List.indexOf_cons_ne _ hbx]
      exact Nat.succ_lt_succ hab

/-! ## Lemmas on `assert` and on the copying loop -/

theorem cassert_eq_some {ndebug cond : Bool} {err : Err} (h : cassert ndebug cond = some err) :
    err = Err.assertFail ∧ ndebug = false ∧ cond = false := by
  unfold cassert at h
  cases ndebug <;> cases cond <;> simp_all

theorem cassert_eq_none {ndebug cond : Bool} (h : cassert ndebug cond = none) :
    ndebug = true ∨ cond = true := by
  unfold cassert at h
  cases ndebug <;> cases cond <;> simp at h ⊢

theorem cassert_of_true (ndebug : Bool) {cond : Bool} (h : cond = true) :
    cassert ndebug cond = none := by
  simp [cassert, h]

theorem pushChecked_raised {σ : Type} (e : Env σ) (m : Nat) (dst src : List Nat) (err : Err)
    (h : (SReac.pushChecked e m dst src).2 = some err) :
    err = Err.assertFail ∧ e.ndebug = false := by
  induction src generalizing dst with
  | nil => simp [SReac.pushChecked] at h
  | cons x rest ih =>
    unfold SReac.pushChecked at h
    split at h
    · rename_i err2 hc
      have := cassert_eq_some hc
      simp at h
      subst h
      exact ⟨this.1, this.2.1⟩
    · exact ih _ h

theorem pushChecked_returned {σ : Type} (e : Env σ) (m : Nat) (dst src : List Nat)
    (h : (SReac.pushChecked e m dst src).2 = none) :
    (SReac.pushChecked e m dst src).1 = dst ++ src := by
  induction src generalizing dst with
  | nil => simp [SReac.pushChecked]
  | cons x rest ih =>
    unfold SReac.pushChecked at h ⊢
    cases hc : cassert e.ndebug (e.specModel x == m) with
    | some err => simp [hc] at h
    | none =>
      simp only [hc] at h ⊢
      rw [ih _ h]
      simp

theorem pushChecked_of_all {σ : Type} (e : Env σ) (m : Nat) (dst src : List Nat)
    (h : e.ndebug = true ∨ ∀ x ∈ src, e.specModel x = m) :
    SReac.pushChecked e m dst src = (dst ++ src, none) := by
  induction src generalizing dst with
  | nil => simp [SReac.pushChecked]
  | cons x rest ih =>
    have hc : cassert e.ndebug (e.specModel x == m) = none := by
      rcases h with h | h
      · simp [cassert, h]
      · simp [cassert, h x (List.mem_cons_self x rest)]
    have h2 : e.ndebug = true ∨ ∀ y ∈ rest, e.specModel y = m := by
      rcases h with h | h
      · exact Or.inl h
      · exact Or.inr (fun y hy => h y (List.mem_cons_of_mem x hy))
    unfold SReac.pushChecked
    simp only [hc]
    rw [ih _ h2]
    simp

theorem pushChecked_models {σ : Type} (e : Env σ) (m : Nat) (dst src : List Nat)
    (hd : e.ndebug = false) (hdst : ∀ x ∈ dst, e.specModel x = m) :
    ∀ x ∈ (SReac.pushChecked e m dst src).1, e.specModel x = m := by
  induction src generalizing dst with
  | nil => simpa [SReac.pushChecked] using hdst
  | cons y rest ih =>
    unfold SReac.pushChecked
    split
    · exact hdst
    · rename_i hc
      apply ih
      intro x hx
      rcases List.mem_append.1 hx with hx | hx
      · exact hdst x hx
      · have hy : x = y := by simpa using hx
        rcases cassert_eq_none hc with h | h
        · simp [hd] at h
        · subst hy
          simpa using h

theorem pushChecked_foreign {σ : Type} (e : Env σ) (m : Nat) (dst src : List Nat)
    (hd : e.ndebug = false) (x : Nat) (hx : x ∈ src) (hf : e.specModel x ≠ m) :
    (SReac.pushChecked e m dst src).2 = some Err.assertFail := by
  induction src generalizing dst with
  | nil => simp at hx
  | cons y rest ih =>
    unfold SReac.pushChecked
    cases hc : cassert e.ndebug (e.specModel y == m) with
    | some err => simp [(cassert_eq_some hc).1]
    | none =>
      simp only []
      rcases List.mem_cons.1 hx with hxy | hxr
      · exfalso
        rcases cassert_eq_none hc with h | h
        · simp [hd] at h
        · subst hxy
          exact hf (by simpa using h)
      · exact ih _ hxr

/-! ## Reference arguments of the vector setters -/

theorem setVLHS_read {σ : Type} (e : Env σ) (a : VecRef) (w : World σ) :
    SReac.setVLHS e a w = SReac.setVLHS e (VecRef.ext (a.read { w.reac with pVLHS := [] })) w :=
  rfl

theorem setVLHS_ext_eq {σ : Type} (e : Env σ) (v : List Nat) (w : World σ) :
    SReac.setVLHS e (VecRef.ext v) w
      = match cassert e.ndebug (w.reac.pSurfsys != 0) with
        | some err => ⟨w, some err⟩
        | none =>
          match SReac.pushChecked e w.reac.pModel [] v with
        | (v, some err) => ⟨{ w with reac := { w.reac with pVLHS := v } }, some err⟩
        | (v, none) =>
          ⟨{ w with reac := { w.reac with pVLHS := v, pOrder := v.length + w.reac.pSLHS.length } },
            none⟩ :=
  rfl

theorem setSLHS_read {σ : Type} (e : Env σ) (a : VecRef) (w : World σ) :
    SReac.setSLHS e a w = SReac.setSLHS e (VecRef.ext (a.read { w.reac with pSLHS := [] })) w :=
  rfl

theorem setSLHS_ext_eq {σ : Type} (e : Env σ) (v : List Nat) (w : World σ) :
    SReac.setSLHS e (VecRef.ext v) w
      = match cassert e.ndebug (w.reac.pSurfsys != 0) with
        | some err => ⟨w, some err⟩
        | none =>
          match SReac.pushChecked e w.reac.pModel [] v with
        | (v, some err) => ⟨{ w with reac := { w.reac with pSLHS := v } }, some err⟩
        | (v, none) =>
          ⟨{ w with reac := { w.reac with pSLHS := v, pOrder := w.reac.pVLHS.length + v.length } },
            none⟩ :=
  rfl

theorem setIRHS_read {σ : Type} (e : Env σ) (a : VecRef) (w : World σ) :
    SReac.setIRHS e a w = SReac.setIRHS e (VecRef.ext (a.read { w.reac with pIRHS := [] })) w :=
  rfl

theorem setIRHS_ext_eq {σ : Type} (e : Env σ) (v : List Nat) (w : World σ) :
    SReac.setIRHS e (VecRef.ext v) w
      = match cassert e.ndebug (w.reac.pSurfsys != 0) with
        | some err => ⟨w, some err⟩
        | none =>
          match SReac.pushChecked e w.reac.pModel [] v with
        | (v, r) => ⟨{ w with reac := { w.reac with pIRHS := v } }, r⟩ :=
  rfl

theorem setSRHS_read {σ : Type} (e : Env σ) (a : VecRef) (w : World σ) :
    SReac.setSRHS e a w = SReac.setSRHS e (VecRef.ext (a.read { w.reac with pSRHS := [] })) w :=
  rfl

theorem setSRHS_ext_eq {σ : Type} (e : Env σ) (v : List Nat) (w : World σ) :
    SReac.setSRHS e (VecRef.ext v) w
      = match cassert e.ndebug (w.reac.pSurfsys != 0) with
        | some err => ⟨w, some err⟩
        | none =>
          match SReac.pushChecked e w.reac.pModel [] v with
        | (v, r) => ⟨{ w with reac := { w.reac with pSRHS := v } }, r⟩ :=
  rfl

theorem setORHS_read {σ : Type} (e : Env σ) (a : VecRef) (w : World σ) :
    SReac.setORHS e a w = SReac.setORHS e (VecRef.ext (a.read { w.reac with pORHS := [] })) w :=
  rfl

theorem setORHS_ext_eq {σ : Type} (e : Env σ) (v : List Nat) (w : World σ) :
    SReac.setORHS e (VecRef.ext v) w
      = match cassert e.ndebug (w.reac.pSurfsys != 0) with
        | some err => ⟨w, some err⟩
        | none =>
          match SReac.pushChecked e w.reac.pModel [] v with
        | (v, r) => ⟨{ w with reac := { w.reac with pORHS := v } }, r⟩ :=
  rfl

/-! ## What each member function does to the state -/

theorem setVLHS_returned {σ : Type} (e : Env σ) (v : List Nat) (w : World σ)
    (h : (SReac.setVLHS e (VecRef.ext v) w).raised = none) :
    (SReac.setVLHS e (VecRef.ext v) w).world = { w with reac := { w.reac with pVLHS := v, pOrder := v.length + w.reac.pSLHS.length } } := by
  rw [setVLHS_ext_eq] at h ⊢
  cases hc : cassert e.ndebug (w.reac.pSurfsys != 0) with
  | some err => simp [hc] at h
  | none =>
    simp only [hc] at h ⊢
    have hp := pushChecked_returned e w.reac.pModel [] v
    cases hq : SReac.pushChecked e w.reac.pModel [] v with
    | mk l r =>
      rw [hq] at hp
      cases r with
      | some err => simp [hq] at h
      | none =>
        have hl : l = v := by simpa using hp rfl
        subst hl
        rfl

theorem setVLHS_raised {σ : Type} (e : Env σ) (v : List Nat) (w : World σ) (err : Err)
    (h : (SReac.setVLHS e (VecRef.ext v) w).raised = some err) : err = Err.assertFail ∧ e.ndebug = false := by
  rw [setVLHS_ext_eq] at h
  cases hc : cassert e.ndebug (w.reac.pSurfsys != 0) with
  | some err2 =>
    simp only [hc] at h
    have h2 : err2 = err := by simpa using h
    subst h2
    exact ⟨(cassert_eq_some hc).1, (cassert_eq_some hc).2.1⟩
  | none =>
    simp only [hc] at h
    have hp := pushChecked_raised e w.reac.pModel [] v
    cases hq : SReac.pushChecked e w.reac.pModel [] v with
    | mk l r =>
      rw [hq] at hp h
      cases r with
      | some err2 =>
        have h2 : err2 = err := by simpa using h
        subst h2
        exact hp err2 rfl
      | none => simp at h

theorem setVLHS_of_all {σ : Type} (e : Env σ) (v : List Nat) (w : World σ)
    (hl : e.ndebug = true ∨ w.reac.pSurfsys ≠ 0)
    (hv : e.ndebug = true ∨ ∀ x ∈ v, e.specModel x = w.reac.pModel) :
    SReac.setVLHS e (VecRef.ext v) w = ⟨{ w with reac := { w.reac with pVLHS := v, pOrder := v.length + w.reac.pSLHS.length } }, none⟩ := by
  have hc : cassert e.ndebug (w.reac.pSurfsys != 0) = none := by
    rcases hl with h | h
    · simp [cassert, h]
    · simp [cassert, h]
  rw [setVLHS_ext_eq]
  simp only [hc]
  rw [pushChecked_of_all e w.reac.pModel [] v hv]
  rfl

theorem setSLHS_returned {σ : Type} (e : Env σ) (v : List Nat) (w : World σ)
    (h : (SReac.setSLHS e (VecRef.ext v) w).raised = none) :
    (SReac.setSLHS e (VecRef.ext v) w).world = { w with reac := { w.reac with pSLHS := v, pOrder := w.reac.pVLHS.length + v.length } } := by
  rw [setSLHS_ext_eq] at h ⊢
  cases hc : cassert e.ndebug (w.reac.pSurfsys != 0) with
  | some err => simp [hc] at h
  | none =>
    simp only [hc] at h ⊢
    have hp := pushChecked_returned e w.reac.pModel [] v
    cases hq : SReac.pushChecked e w.reac.pModel [] v with
    | mk l r =>
      rw [hq] at hp
      cases r with
      | some err => simp [hq] at h
      | none =>
        have hl : l = v := by simpa using hp rfl
        subst hl
        rfl

theorem setSLHS_raised {σ : Type} (e : Env σ) (v : List Nat) (w : World σ) (err : Err)
    (h : (SReac.setSLHS e (VecRef.ext v) w).raised = some err) : err = Err.assertFail ∧ e.ndebug = false := by
  rw [setSLHS_ext_eq] at h
  cases hc : cassert e.ndebug (w.reac.pSurfsys != 0) with
  | some err2 =>
    simp only [hc] at h
    have h2 : err2 = err := by simpa using h
    subst h2
    exact ⟨(cassert_eq_some hc).1, (cassert_eq_some hc).2.1⟩
  | none =>
    simp only [hc] at h
    have hp := pushChecked_raised e w.reac.pModel [] v
    cases hq : SReac.pushChecked e w.reac.pModel [] v with
    | mk l r =>
      rw [hq] at hp h
      cases r with
      | some err2 =>
        have h2 : err2 = err := by simpa using h
        subst h2
        exact hp err2 rfl
      | none => simp at h

theorem setSLHS_of_all {σ : Type} (e : Env σ) (v : List Nat) (w : World σ)
    (hl : e.ndebug = true ∨ w.reac.pSurfsys ≠ 0)
    (hv : e.ndebug = true ∨ ∀ x ∈ v, e.specModel x = w.reac.pModel) :
    SReac.setSLHS e (VecRef.ext v) w = ⟨{ w with reac := { w.reac with pSLHS := v, pOrder := w.reac.pVLHS.length + v.length } }, none⟩ := by
  have hc : cassert e.ndebug (w.reac.pSurfsys != 0) = none := by
    rcases hl with h | h
    · simp [cassert, h]
    · simp [cassert, h]
  rw [setSLHS_ext_eq]
  simp only [hc]
  rw [pushChecked_of_all e w.reac.pModel [] v hv]
  rfl

theorem setIRHS_returned {σ : Type} (e : Env σ) (v : List Nat) (w : World σ)
    (h : (SReac.setIRHS e (VecRef.ext v) w).raised = none) :
    (SReac.setIRHS e (VecRef.ext v) w).world = { w with reac := { w.reac with pIRHS := v } } := by
  rw [setIRHS_ext_eq] at h ⊢
  cases hc : cassert e.ndebug (w.reac.pSurfsys != 0) with
  | some err => simp [hc] at h
  | none =>
    simp only [hc] at h ⊢
    have hp := pushChecked_returned e w.reac.pModel [] v
    cases hq : SReac.pushChecked e w.reac.pModel [] v with
    | mk l r =>
      rw [hq] at hp
      cases r with
      | some err => simp [hq] at h
      | none =>
        have hl : l = v := by simpa using hp rfl
        subst hl
        rfl

theorem setIRHS_raised {σ : Type} (e : Env σ) (v : List Nat) (w : World σ) (err : Err)
    (h : (SReac.setIRHS e (VecRef.ext v) w).raised = some err) : err = Err.assertFail ∧ e.ndebug = false := by
  rw [setIRHS_ext_eq] at h
  cases hc : cassert e.ndebug (w.reac.pSurfsys != 0) with
  | some err2 =>
    simp only [hc] at h
    have h2 : err2 = err := by simpa using h
    subst h2
    exact ⟨(cassert_eq_some hc).1, (cassert_eq_some hc).2.1⟩
  | none =>
    simp only [hc] at h
    have hp := pushChecked_raised e w.reac.pModel [] v
    cases hq : SReac.pushChecked e w.reac.pModel [] v with
    | mk l r =>
      rw [hq] at hp h
      cases r with
      | some err2 =>
        have h2 : err2 = err := by simpa using h
        subst h2
        exact hp err2 rfl
      | none => simp at h

theorem setIRHS_of_all {σ : Type} (e : Env σ) (v : List Nat) (w : World σ)
    (hl : e.ndebug = true ∨ w.reac.pSurfsys ≠ 0)
    (hv : e.ndebug = true ∨ ∀ x ∈ v, e.specModel x = w.reac.pModel) :
    SReac.setIRHS e (VecRef.ext v) w = ⟨{ w with reac := { w.reac with pIRHS := v } }, none⟩ := by
  have hc : cassert e.ndebug (w.reac.pSurfsys != 0) = none := by
    rcases hl with h | h
    · simp [cassert, h]
    · simp [cassert, h]
  rw [setIRHS_ext_eq]
  simp only [hc]
  rw [pushChecked_of_all e w.reac.pModel [] v hv]
  rfl

theorem setSRHS_returned {σ : Type} (e : Env σ) (v : List Nat) (w : World σ)
    (h : (SReac.setSRHS e (VecRef.ext v) w).raised = none) :
    (SReac.setSRHS e (VecRef.ext v) w).world = { w with reac := { w.reac with pSRHS := v } } := by
  rw [setSRHS_ext_eq] at h ⊢
  cases hc : cassert e.ndebug (w.reac.pSurfsys != 0) with
  | some err => simp [hc] at h
  | none =>
    simp only [hc] at h ⊢
    have hp := pushChecked_returned e w.reac.pModel [] v
    cases hq : SReac.pushChecked e w.reac.pModel [] v with
    | mk l r =>
      rw [hq] at hp
      cases r with
      | some err => simp [hq] at h
      | none =>
        have hl : l = v := by simpa using hp rfl
        subst hl
        rfl

theorem setSRHS_raised {σ : Type} (e : Env σ) (v : List Nat) (w : World σ) (err : Err)
    (h : (SReac.setSRHS e (VecRef.ext v) w).raised = some err) : err = Err.assertFail ∧ e.ndebug = false := by
  rw [setSRHS_ext_eq] at h
  cases hc : cassert e.ndebug (w.reac.pSurfsys != 0) with
  | some err2 =>
    simp only [hc] at h
    have h2 : err2 = err := by simpa using h
    subst h2
    exact ⟨(cassert_eq_some hc).1, (cassert_eq_some hc).2.1⟩
  | none =>
    simp only [hc] at h
    have hp := pushChecked_raised e w.reac.pModel [] v
    cases hq : SReac.pushChecked e w.reac.pModel [] v with
    | mk l r =>
      rw [hq] at hp h
      cases r with
      | some err2 =>
        have h2 : err2 = err := by simpa using h
        subst h2
        exact hp err2 rfl
      | none => simp at h

theorem setSRHS_of_all {σ : Type} (e : Env σ) (v : List Nat) (w : World σ)
    (hl : e.ndebug = true ∨ w.reac.pSurfsys ≠ 0)
    (hv : e.ndebug = true ∨ ∀ x ∈ v, e.specModel x = w.reac.pModel) :
    SReac.setSRHS e (VecRef.ext v) w = ⟨{ w with reac := { w.reac with pSRHS := v } }, none⟩ := by
  have hc : cassert e.ndebug (w.reac.pSurfsys != 0) = none := by
    rcases hl with h | h
    · simp [cassert, h]
    · simp [cassert, h]
  rw [setSRHS_ext_eq]
  simp only [hc]
  rw [pushChecked_of_all e w.reac.pModel [] v hv]
  rfl

theorem setORHS_returned {σ : Type} (e : Env σ) (v : List Nat) (w : World σ)
    (h : (SReac.setORHS e (VecRef.ext v) w).raised = none) :
    (SReac.setORHS e (VecRef.ext v) w).world = { w with reac := { w.reac with pORHS := v } } := by
  rw [setORHS_ext_eq] at h ⊢
  cases hc : cassert e.ndebug (w.reac.pSurfsys != 0) with
  | some err => simp [hc] at h
  | none =>
    simp only [hc] at h ⊢
    have hp := pushChecked_returned e w.reac.pModel [] v
    cases hq : SReac.pushChecked e w.reac.pModel [] v with
    | mk l r =>
      rw [hq] at hp
      cases r with
      | some err => simp [hq] at h
      | none =>
        have hl : l = v := by simpa using hp rfl
        subst hl
        rfl

theorem setORHS_raised {σ : Type} (e : Env σ) (v : List Nat) (w : World σ) (err : Err)
    (h : (SReac.setORHS e (VecRef.ext v) w).raised = some err) : err = Err.assertFail ∧ e.ndebug = false := by
  rw [setORHS_ext_eq] at h
  cases hc : cassert e.ndebug (w.reac.pSurfsys != 0) with
  | some err2 =>
    simp only [hc] at h
    have h2 : err2 = err := by simpa using h
    subst h2
    exact ⟨(cassert_eq_some hc).1, (cassert_eq_some hc).2.1⟩
  | none =>
    simp only [hc] at h
    have hp := pushChecked_raised e w.reac.pModel [] v
    cases hq : SReac.pushChecked e w.reac.pModel [] v with
    | mk l r =>
      rw [hq] at hp h
      cases r with
      | some err2 =>
        have h2 : err2 = err := by simpa using h
        subst h2
        exact hp err2 rfl
      | none => simp at h

theorem setORHS_of_all {σ : Type} (e : Env σ) (v : List Nat) (w : World σ)
    (hl : e.ndebug = true ∨ w.reac.pSurfsys ≠ 0)
    (hv : e.ndebug = true ∨ ∀ x ∈ v, e.specModel x = w.reac.pModel) :
    SReac.setORHS e (VecRef.ext v) w = ⟨{ w with reac := { w.reac with pORHS := v } }, none⟩ := by
  have hc : cassert e.ndebug (w.reac.pSurfsys != 0) = none := by
    rcases hl with h | h
    · simp [cassert, h]
    · simp [cassert, h]
  rw [setORHS_ext_eq]
  simp only [hc]
  rw [pushChecked_of_all e w.reac.pModel [] v hv]
  rfl

theorem setVLHS_foreign {σ : Type} (e : Env σ) (v : List Nat) (w : World σ)
    (hd : e.ndebug = false) (x : Nat) (hx : x ∈ v) (hf : e.specModel x ≠ w.reac.pModel) :
    (SReac.setVLHS e (VecRef.ext v) w).raised = some Err.assertFail := by
  cases hr : (SReac.setVLHS e (VecRef.ext v) w).raised with
  | some err => rw [(setVLHS_raised e v w err hr).1]
  | none =>
    exfalso
    rw [setVLHS_ext_eq] at hr
    cases hc : cassert e.ndebug (w.reac.pSurfsys != 0) with
    | some err => simp [hc] at hr
    | none =>
      simp only [hc] at hr
      have hp := pushChecked_foreign e w.reac.pModel [] v hd x hx hf
      cases hq : SReac.pushChecked e w.reac.pModel [] v with
      | mk l r =>
        rw [hq] at hp hr
        simp only at hp
        subst hp
        simp at hr

theorem setSLHS_foreign {σ : Type} (e : Env σ) (v : List Nat) (w : World σ)
    (hd : e.ndebug = false) (x : Nat) (hx : x ∈ v) (hf : e.specModel x ≠ w.reac.pModel) :
    (SReac.setSLHS e (VecRef.ext v) w).raised = some Err.assertFail := by
  cases hr : (SReac.setSLHS e (VecRef.ext v) w).raised with
  | some err => rw [(setSLHS_raised e v w err hr).1]
  | none =>
    exfalso
    rw [setSLHS_ext_eq] at hr
    cases hc : cassert e.ndebug (w.reac.pSurfsys != 0) with
    | some err => simp [hc] at hr
    | none =>
      simp only [hc] at hr
      have hp := pushChecked_foreign e w.reac.pModel [] v hd x hx hf
      cases hq : SReac.pushChecked e w.reac.pModel [] v with
      | mk l r =>
        rw [hq] at hp hr
        simp only at hp
        subst hp
        simp at hr

theorem setIRHS_foreign {σ : Type} (e : Env σ) (v : List Nat) (w : World σ)
    (hd : e.ndebug = false) (x : Nat) (hx : x ∈ v) (hf : e.specModel x ≠ w.reac.pModel) :
    (SReac.setIRHS e (VecRef.ext v) w).raised = some Err.assertFail := by
  cases hr : (SReac.setIRHS e (VecRef.ext v) w).raised with
  | some err => rw [(setIRHS_raised e v w err hr).1]
  | none =>
    exfalso
    rw [setIRHS_ext_eq] at hr
    cases hc : cassert e.ndebug (w.reac.pSurfsys != 0) with
    | some err => simp [hc] at hr
    | none =>
      simp only [hc] at hr
      have hp := pushChecked_foreign e w.reac.pModel [] v hd x hx hf
      cases hq : SReac.pushChecked e w.reac.pModel [] v with
      | mk l r =>
        rw [hq] at hp hr
        simp only at hp
        subst hp
        simp at hr

theorem setSRHS_foreign {σ : Type} (e : Env σ) (v : List Nat) (w : World σ)
    (hd : e.ndebug = false) (x : Nat) (hx : x ∈ v) (hf : e.specModel x ≠ w.reac.pModel) :
    (SReac.setSRHS e (VecRef.ext v) w).raised = some Err.assertFail := by
  cases hr : (SReac.setSRHS e (VecRef.ext v) w).raised with
  | some err => rw [(setSRHS_raised e v w err hr).1]
  | none =>
    exfalso
    rw [setSRHS_ext_eq] at hr
    cases hc : cassert e.ndebug (w.reac.pSurfsys != 0) with
    | some err => simp [hc] at hr
    | none =>
      simp only [hc] at hr
      have hp := pushChecked_foreign e w.reac.pModel [] v hd x hx hf
      cases hq : SReac.pushChecked e w.reac.pModel [] v with
      | mk l r =>
        rw [hq] at hp hr
        simp only at hp
        subst hp
        simp at hr

theorem setORHS_foreign {σ : Type} (e : Env σ) (v : List Nat) (w : World σ)
    (hd : e.ndebug = false) (x : Nat) (hx : x ∈ v) (hf : e.specModel x ≠ w.reac.pModel) :
    (SReac.setORHS e (VecRef.ext v) w).raised = some Err.assertFail := by
  cases hr : (SReac.setORHS e (VecRef.ext v) w).raised with
  | some err => rw [(setORHS_raised e v w err hr).1]
  | none =>
    exfalso
    rw [setORHS_ext_eq] at hr
    cases hc : cassert e.ndebug (w.reac.pSurfsys != 0) with
    | some err => simp [hc] at hr
    | none =>
      simp only [hc] at hr
      have hp := pushChecked_foreign e w.reac.pModel [] v hd x hx hf
      cases hq : SReac.pushChecked e w.reac.pModel [] v with
      | mk l r =>
        rw [hq] at hp hr
        simp only at hp
        subst hp
        simp at hr

theorem andThen_returned {σ : Type} (r : Res σ) (f : World σ → Res σ)
    (h : (r.andThen f).raised = none) : r.raised = none ∧ r.andThen f = f r.world := by
  unfold Res.andThen at h ⊢
  cases hr : r.raised with
  | none => simp
  | some err =>
    rw [hr] at h
    simp only at h
    rw [hr] at h
    simp at h

theorem andThen_mk_none {σ : Type} (w : World σ) (f : World σ → Res σ) :
    (⟨w, none⟩ : Res σ).andThen f = f w := rfl

theorem andThen_of_returned {σ : Type} (r : Res σ) (f : World σ → Res σ)
    (h : r.raised = none) : r.andThen f = f r.world := by
  unfold Res.andThen
  rw [h]

theorem andThen_of_raised {σ : Type} (r : Res σ) (f : World σ → Res σ) (err : Err)
    (h : r.raised = some err) : r.andThen f = r := by
  unfold Res.andThen
  rw [h]

theorem setVLHS_returned_models {σ : Type} (e : Env σ) (v : List Nat) (w : World σ)
    (h : (SReac.setVLHS e (VecRef.ext v) w).raised = none) :
    e.ndebug = true ∨ ∀ x ∈ v, e.specModel x = w.reac.pModel := by
  cases hd : e.ndebug with
  | true => exact Or.inl rfl
  | false =>
    right
    intro x hx
    by_contra hf
    have h2 := setVLHS_foreign e v w hd x hx hf
    rw [h] at h2
    simp at h2

theorem setSLHS_returned_models {σ : Type} (e : Env σ) (v : List Nat) (w : World σ)
    (h : (SReac.setSLHS e (VecRef.ext v) w).raised = none) :
    e.ndebug = true ∨ ∀ x ∈ v, e.specModel x = w.reac.pModel := by
  cases hd : e.ndebug with
  | true => exact Or.inl rfl
  | false =>
    right
    intro x hx
    by_contra hf
    have h2 := setSLHS_foreign e v w hd x hx hf
    rw [h] at h2
    simp at h2

theorem setIRHS_returned_models {σ : Type} (e : Env σ) (v : List Nat) (w : World σ)
    (h : (SReac.setIRHS e (VecRef.ext v) w).raised = none) :
    e.ndebug = true ∨ ∀ x ∈ v, e.specModel x = w.reac.pModel := by
  cases hd : e.ndebug with
  | true => exact Or.inl rfl
  | false =>
    right
    intro x hx
    by_contra hf
    have h2 := setIRHS_foreign e v w hd x hx hf
    rw [h] at h2
    simp at h2

theorem setSRHS_returned_models {σ : Type} (e : Env σ) (v : List Nat) (w : World σ)
    (h : (SReac.setSRHS e (VecRef.ext v) w).raised = none) :
    e.ndebug = true ∨ ∀ x ∈ v, e.specModel x = w.reac.pModel := by
  cases hd : e.ndebug with
  | true => exact Or.inl rfl
  | false =>
    right
    intro x hx
    by_contra hf
    have h2 := setSRHS_foreign e v w hd x hx hf
    rw [h] at h2
    simp at h2

theorem setORHS_returned_models {σ : Type} (e : Env σ) (v : List Nat) (w : World σ)
    (h : (SReac.setORHS e (VecRef.ext v) w).raised = none) :
    e.ndebug = true ∨ ∀ x ∈ v, e.specModel x = w.reac.pModel := by
  cases hd : e.ndebug with
  | true => exact Or.inl rfl
  | false =>
    right
    intro x hx
    by_contra hf
    have h2 := setORHS_foreign e v w hd x hx hf
    rw [h] at h2
    simp at h2

theorem construct_of_ok {σ : Type} (e : Env σ) (id : String) (surfsys : Nat)
    (vlhs slhs irhs srhs orhs : List Nat) (kcst : Double) (c : σ)
    (hs : surfsys ≠ 0) (hk : Double.lt kcst Double.zero = false)
    (hm : e.ndebug = true ∨ e.getModel c ≠ 0)
    (hv : e.ndebug = true ∨ ∀ x ∈ vlhs ++ slhs ++ irhs ++ srhs ++ orhs,
      e.specModel x = e.getModel c) :
    SReac.SReac e id surfsys vlhs slhs irhs srhs orhs kcst c
      = ⟨⟨SReac.built e id surfsys vlhs slhs irhs srhs orhs kcst c,
          (e.handleSReacAdd c (SReac.built e id surfsys vlhs slhs irhs srhs orhs kcst c)).1⟩,
         (e.handleSReacAdd c (SReac.built e id surfsys vlhs slhs irhs srhs orhs kcst c)).2⟩ := by
  have hc : cassert e.ndebug (e.getModel c != 0) = none := by
    rcases hm with h | h
    · simp [cassert, h]
    · simp [cassert, h]
  have hsub : ∀ l : List Nat, (∀ x ∈ l, x ∈ vlhs ++ slhs ++ irhs ++ srhs ++ orhs) →
      (e.ndebug = true ∨ ∀ x ∈ l, e.specModel x = e.getModel c) := by
    intro l hl
    rcases hv with h | h
    · exact Or.inl h
    · exact Or.inr (fun x hx => h x (hl x hx))
  unfold SReac.SReac
  simp only [beq_iff_eq, hs, if_false, hk, Bool.false_eq_true, hc]
  rw [setVLHS_of_all e vlhs _ (Or.inr hs) (hsub vlhs (by intro x hx; simp [hx]))]
  rw [andThen_mk_none]
  rw [setSLHS_of_all e slhs _ (Or.inr hs) (hsub slhs (by intro x hx; simp [hx]))]
  rw [andThen_mk_none]
  rw [setIRHS_of_all e irhs _ (Or.inr hs) (hsub irhs (by intro x hx; simp [hx]))]
  rw [andThen_mk_none]
  rw [setSRHS_of_all e srhs _ (Or.inr hs) (hsub srhs (by intro x hx; simp [hx]))]
  rw [andThen_mk_none]
  rw [setORHS_of_all e orhs _ (Or.inr hs) (hsub orhs (by intro x hx; simp [hx]))]
  rw [andThen_mk_none]
  rfl

theorem body_returned_models {σ : Type} (e : Env σ) (vlhs slhs irhs srhs orhs : List Nat)
    (w : World σ)
    (h : (((((SReac.setVLHS e (VecRef.ext vlhs) w).andThen (SReac.setSLHS e (VecRef.ext slhs))).andThen
      (SReac.setIRHS e (VecRef.ext irhs))).andThen (SReac.setSRHS e (VecRef.ext srhs))).andThen
        (SReac.setORHS e (VecRef.ext orhs))).raised = none) :
    e.ndebug = true ∨ ∀ x ∈ vlhs ++ slhs ++ irhs ++ srhs ++ orhs,
      e.specModel x = w.reac.pModel := by
  obtain ⟨h4, e5⟩ := andThen_returned _ _ h
  obtain ⟨h3, e4⟩ := andThen_returned _ _ h4
  obtain ⟨h2, e3⟩ := andThen_returned _ _ h3
  obtain ⟨h1, e2⟩ := andThen_returned _ _ h2
  have m1 := setVLHS_returned_models _ _ _ h1
  have w1 := setVLHS_returned _ _ _ h1
  rw [e2] at h2 h3 h4 h e3 e4 e5
  have m2 := setSLHS_returned_models _ _ _ h2
  have w2 := setSLHS_returned _ _ _ h2
  rw [e3] at h3 h4 h e4 e5
  have m3 := setIRHS_returned_models _ _ _ h3
  have w3 := setIRHS_returned _ _ _ h3
  rw [e4] at h4 h e5
  have m4 := setSRHS_returned_models _ _ _ h4
  have w4 := setSRHS_returned _ _ _ h4
  rw [e5] at h
  have m5 := setORHS_returned_models _ _ _ h
  rw [w4] at m5
  rw [w3] at m4 m5
  rw [w2] at m3 m4 m5
  rw [w1] at m2 m3 m4 m5
  simp only at m1 m2 m3 m4 m5
  cases hd : e.ndebug with
  | true => exact Or.inl rfl
  | false =>
    simp only [hd, Bool.false_eq_true, false_or] at m1 m2 m3 m4 m5
    right
    intro x hx
    simp only [List.mem_append] at hx
    rcases hx with (((hx | hx) | hx) | hx) | hx
    · exact m1 x hx
    · exact m2 x hx
    · exact m3 x hx
    · exact m4 x hx
    · exact m5 x hx

theorem andThen_raised {σ : Type} (r : Res σ) (f : World σ → Res σ) (err : Err)
    (h : (r.andThen f).raised = some err) :
    r.raised = some err ∨ (r.raised = none ∧ (f r.world).raised = some err) := by
  unfold Res.andThen at h
  cases hr : r.raised with
  | none =>
    rw [hr] at h
    exact Or.inr ⟨rfl, h⟩
  | some err2 =>
    rw [hr] at h
    simp only at h
    rw [hr] at h
    exact Or.inl h

theorem body_raised {σ : Type} (e : Env σ) (vlhs slhs irhs srhs orhs : List Nat)
    (w : World σ) (err : Err)
    (h : (((((SReac.setVLHS e (VecRef.ext vlhs) w).andThen (SReac.setSLHS e (VecRef.ext slhs))).andThen
      (SReac.setIRHS e (VecRef.ext irhs))).andThen (SReac.setSRHS e (VecRef.ext srhs))).andThen
        (SReac.setORHS e (VecRef.ext orhs))).raised = some err) :
    err = Err.assertFail := by
  rcases andThen_raised _ _ _ h with h | ⟨-, h⟩
  · rcases andThen_raised _ _ _ h with h | ⟨-, h⟩
    · rcases andThen_raised _ _ _ h with h | ⟨-, h⟩
      · rcases andThen_raised _ _ _ h with h | ⟨-, h⟩
        · exact (setVLHS_raised _ _ _ _ h).1
        · exact (setSLHS_raised _ _ _ _ h).1
      · exact (setIRHS_raised _ _ _ _ h).1
    · exact (setSRHS_raised _ _ _ _ h).1
  · exact (setORHS_raised _ _ _ _ h).1

theorem construct_returned {σ : Type} (e : Env σ) (id : String) (surfsys : Nat)
    (vlhs slhs irhs srhs orhs : List Nat) (kcst : Double) (c : σ)
    (h : (SReac.SReac e id surfsys vlhs slhs irhs srhs orhs kcst c).raised = none) :
    surfsys ≠ 0 ∧ Double.lt kcst Double.zero = false ∧ (e.ndebug = true ∨ e.getModel c ≠ 0) ∧
      (e.ndebug = true ∨ ∀ x ∈ vlhs ++ slhs ++ irhs ++ srhs ++ orhs,
        e.specModel x = e.getModel c) := by
  by_cases hs : surfsys = 0
  · exfalso
    unfold SReac.SReac at h
    simp [hs] at h
  by_cases hk : Double.lt kcst Double.zero = true
  · exfalso
    unfold SReac.SReac at h
    simp [hs, hk] at h
  cases hc : cassert e.ndebug (e.getModel c != 0) with
  | some err =>
    exfalso
    unfold SReac.SReac at h
    simp [hs, hk, hc] at h
  | none =>
    refine ⟨hs, by simpa using hk, ?_, ?_⟩
    · rcases cassert_eq_none hc with h1 | h1
      · exact Or.inl h1
      · exact Or.inr (by simpa using h1)
    · unfold SReac.SReac at h
      simp only [beq_iff_eq, hs, if_false, hk, hc] at h
      obtain ⟨h5, -⟩ := andThen_returned _ _ h
      exact body_returned_models e vlhs slhs irhs srhs orhs _ h5

theorem construct_returned_eq {σ : Type} (e : Env σ) (id : String) (surfsys : Nat)
    (vlhs slhs irhs srhs orhs : List Nat) (kcst : Double) (c : σ)
    (h : (SReac.SReac e id surfsys vlhs slhs irhs srhs orhs kcst c).raised = none) :
    (SReac.SReac e id surfsys vlhs slhs irhs srhs orhs kcst c).world
      = ⟨SReac.built e id surfsys vlhs slhs irhs srhs orhs kcst c,
          (e.handleSReacAdd c (SReac.built e id surfsys vlhs slhs irhs srhs orhs kcst c)).1⟩ := by
  obtain ⟨hs, hk, hm, hv⟩ := construct_returned e id surfsys vlhs slhs irhs srhs orhs kcst c h
  rw [construct_of_ok e id surfsys vlhs slhs irhs srhs orhs kcst c hs hk hm hv]

theorem not_survives_assertFail {σ : Type} (r : Res σ) (h : r.raised = some Err.assertFail) :
    r.survives = false := by
  simp [Res.survives, h, Err.fatal]

theorem handleSelfDelete_reacStep {σ : Type} (e : Env σ) (w : World σ) :
    ReacStep e w.reac (SReac._handleSelfDelete e w).world.reac := by
  unfold SReac._handleSelfDelete
  by_cases h0 : w.reac.pSurfsys = 0
  · simp only [h0, beq_self_eq_true, if_true]
    exact ReacStep.same _
  · simp only [beq_iff_eq, h0, if_false]
    cases hd : e.handleSReacDel w.surfsys w.reac with
    | mk c r =>
      cases r with
      | some err => exact ReacStep.same _
      | none => exact ReacStep.cleared _

theorem run_reacStep {σ : Type} (e : Env σ) (k : Call) (w : World σ)
    (h : (k.run e w).survives = true) : ReacStep e w.reac (k.run e w).world.reac := by
  cases k with
  | setVLHS a =>
    simp only [Call.run] at h ⊢
    rw [setVLHS_read e a w] at h ⊢
    generalize a.read { w.reac with pVLHS := [] } = v at h ⊢
    cases hr : (SReac.setVLHS e (VecRef.ext v) w).raised with
    | none =>
      rw [setVLHS_returned e v w hr]
      exact ReacStep.vlhs _ _ (setVLHS_returned_models e v w hr)
    | some err =>
      have h2 := (setVLHS_raised e v w err hr).1
      subst h2
      rw [not_survives_assertFail _ hr] at h
      simp at h
  | setSLHS a =>
    simp only [Call.run] at h ⊢
    rw [setSLHS_read e a w] at h ⊢
    generalize a.read { w.reac with pSLHS := [] } = v at h ⊢
    cases hr : (SReac.setSLHS e (VecRef.ext v) w).raised with
    | none =>
      rw [setSLHS_returned e v w hr]
      exact ReacStep.slhs _ _ (setSLHS_returned_models e v w hr)
    | some err =>
      have h2 := (setSLHS_raised e v w err hr).1
      subst h2
      rw [not_survives_assertFail _ hr] at h
      simp at h
  | setIRHS a =>
    simp only [Call.run] at h ⊢
    rw [setIRHS_read e a w] at h ⊢
    generalize a.read { w.reac with pIRHS := [] } = v at h ⊢
    cases hr : (SReac.setIRHS e (VecRef.ext v) w).raised with
    | none =>
      rw [setIRHS_returned e v w hr]
      exact ReacStep.irhs _ _ (setIRHS_returned_models e v w hr)
    | some err =>
      have h2 := (setIRHS_raised e v w err hr).1
      subst h2
      rw [not_survives_assertFail _ hr] at h
      simp at h
  | setSRHS a =>
    simp only [Call.run] at h ⊢
    rw [setSRHS_read e a w] at h ⊢
    generalize a.read { w.reac with pSRHS := [] } = v at h ⊢
    cases hr : (SReac.setSRHS e (VecRef.ext v) w).raised with
    | none =>
      rw [setSRHS_returned e v w hr]
      exact ReacStep.srhs _ _ (setSRHS_returned_models e v w hr)
    | some err =>
      have h2 := (setSRHS_raised e v w err hr).1
      subst h2
      rw [not_survives_assertFail _ hr] at h
      simp at h
  | setORHS a =>
    simp only [Call.run] at h ⊢
    rw [setORHS_read e a w] at h ⊢
    generalize a.read { w.reac with pORHS := [] } = v at h ⊢
    cases hr : (SReac.setORHS e (VecRef.ext v) w).raised with
    | none =>
      rw [setORHS_returned e v w hr]
      exact ReacStep.orhs _ _ (setORHS_returned_models e v w hr)
    | some err =>
      have h2 := (setORHS_raised e v w err hr).1
      subst h2
      rw [not_survives_assertFail _ hr] at h
      simp at h
  | setKcst kc =>
    simp only [Call.run, SReac.setKcst]
    cases hc : cassert e.ndebug (w.reac.pSurfsys != 0) with
    | some err => exact ReacStep.same _
    | none =>
      cases hk : Double.lt kc Double.zero with
      | true => exact ReacStep.same _
      | false => exact ReacStep.kcst _ _ hk
  | setID id =>
    simp only [Call.run, SReac.setID]
    cases hc : cassert e.ndebug (w.reac.pSurfsys != 0) with
    | some err => exact ReacStep.same _
    | none =>
      by_cases h0 : w.reac.pSurfsys = 0
      · simp only [h0, beq_self_eq_true, if_true]
        exact ReacStep.same _
      · simp only [beq_iff_eq, h0, if_false]
        cases hd : e.handleSReacIDChange w.surfsys w.reac.pID id with
        | mk c r =>
          cases r with
          | some err => exact ReacStep.same _
          | none => exact ReacStep.id _ _
  | setInner b =>
    simp only [Call.run, SReac.setInner]
    cases hc : cassert e.ndebug (w.reac.pSurfsys != 0) with
    | some err => exact ReacStep.same _
    | none => exact ReacStep.outer _ _
  | setOuter b =>
    simp only [Call.run, SReac.setOuter]
    cases hc : cassert e.ndebug (w.reac.pSurfsys != 0) with
    | some err => exact ReacStep.same _
    | none => exact ReacStep.outer _ _
  | destructor =>
    simp only [Call.run, SReac.destructor]
    by_cases h0 : w.reac.pSurfsys = 0
    · simp only [h0, beq_self_eq_true, if_true]
      exact ReacStep.same _
    · simp only [beq_iff_eq, h0, if_false]
      exact handleSelfDelete_reacStep e w
  | handleSelfDelete => exact handleSelfDelete_reacStep e w

theorem sampleWorld_reachable (ndebug : Bool) :
    Reachable (sampleEnv ndebug) (sampleWorld ndebug) := by
  unfold sampleWorld
  refine Reachable.construct _ _ _ _ _ _ _ _ _ ?_
  cases ndebug <;> decide

theorem res_eta {σ : Type} (r : Res σ) : r = ⟨r.world, r.raised⟩ := by
  cases r
  rfl

theorem double_ge_zero_of_not_lt (k : Double) (h : Double.lt k Double.zero = false)
    (hn : k ≠ Double.nan) : Double.ge k Double.zero = true := by
  cases k with
  | nan => exact absurd rfl hn
  | negInf => simp [Double.lt, Double.zero] at h
  | posInf => simp [Double.ge, Double.zero]
  | fin q =>
    simp only [Double.lt, Double.zero, decide_eq_false_iff_not, not_lt] at h
    simp [Double.ge, Double.zero, h]

theorem setVLHS_keeps_models {σ : Type} (e : Env σ) (v : List Nat) (w : World σ)
    (hd : e.ndebug = false) (h : SReac.speciesInModel e w.reac) :
    SReac.speciesInModel e (SReac.setVLHS e (VecRef.ext v) w).world.reac := by
  rw [setVLHS_ext_eq]
  cases hc : cassert e.ndebug (w.reac.pSurfsys != 0) with
  | some err => exact h
  | none =>
    have hl := pushChecked_models e w.reac.pModel [] v hd (by simp)
    cases hq : SReac.pushChecked e w.reac.pModel [] v with
    | mk l r =>
      rw [hq] at hl
      cases r <;>
      · intro x hx
        have h2 := h x
        simp only [SReac.allSides, List.mem_append] at hx h2
        rcases hx with (((hx | hx) | hx) | hx) | hx
        all_goals first | exact hl x hx | exact h2 (by simp [hx])

theorem setSLHS_keeps_models {σ : Type} (e : Env σ) (v : List Nat) (w : World σ)
    (hd : e.ndebug = false) (h : SReac.speciesInModel e w.reac) :
    SReac.speciesInModel e (SReac.setSLHS e (VecRef.ext v) w).world.reac := by
  rw [setSLHS_ext_eq]
  cases hc : cassert e.ndebug (w.reac.pSurfsys != 0) with
  | some err => exact h
  | none =>
    have hl := pushChecked_models e w.reac.pModel [] v hd (by simp)
    cases hq : SReac.pushChecked e w.reac.pModel [] v with
    | mk l r =>
      rw [hq] at hl
      cases r <;>
      · intro x hx
        have h2 := h x
        simp only [SReac.allSides, List.mem_append] at hx h2
        rcases hx with (((hx | hx) | hx) | hx) | hx
        all_goals first | exact hl x hx | exact h2 (by simp [hx])

theorem setIRHS_keeps_models {σ : Type} (e : Env σ) (v : List Nat) (w : World σ)
    (hd : e.ndebug = false) (h : SReac.speciesInModel e w.reac) :
    SReac.speciesInModel e (SReac.setIRHS e (VecRef.ext v) w).world.reac := by
  rw [setIRHS_ext_eq]
  cases hc : cassert e.ndebug (w.reac.pSurfsys != 0) with
  | some err => exact h
  | none =>
    have hl := pushChecked_models e w.reac.pModel [] v hd (by simp)
    cases hq : SReac.pushChecked e w.reac.pModel [] v with
    | mk l r =>
      rw [hq] at hl
      cases r <;>
      · intro x hx
        have h2 := h x
        simp only [SReac.allSides, List.mem_append] at hx h2
        rcases hx with (((hx | hx) | hx) | hx) | hx
        all_goals first | exact hl x hx | exact h2 (by simp [hx])

theorem setSRHS_keeps_models {σ : Type} (e : Env σ) (v : List Nat) (w : World σ)
    (hd : e.ndebug = false) (h : SReac.speciesInModel e w.reac) :
    SReac.speciesInModel e (SReac.setSRHS e (VecRef.ext v) w).world.reac := by
  rw [setSRHS_ext_eq]
  cases hc : cassert e.ndebug (w.reac.pSurfsys != 0) with
  | some err => exact h
  | none =>
    have hl := pushChecked_models e w.reac.pModel [] v hd (by simp)
    cases hq : SReac.pushChecked e w.reac.pModel [] v with
    | mk l r =>
      rw [hq] at hl
      cases r <;>
      · intro x hx
        have h2 := h x
        simp only [SReac.allSides, List.mem_append] at hx h2
        rcases hx with (((hx | hx) | hx) | hx) | hx
        all_goals first | exact hl x hx | exact h2 (by simp [hx])

theorem setORHS_keeps_models {σ : Type} (e : Env σ) (v : List Nat) (w : World σ)
    (hd : e.ndebug = false) (h : SReac.speciesInModel e w.reac) :
    SReac.speciesInModel e (SReac.setORHS e (VecRef.ext v) w).world.reac := by
  rw [setORHS_ext_eq]
  cases hc : cassert e.ndebug (w.reac.pSurfsys != 0) with
  | some err => exact h
  | none =>
    have hl := pushChecked_models e w.reac.pModel [] v hd (by simp)
    cases hq : SReac.pushChecked e w.reac.pModel [] v with
    | mk l r =>
      rw [hq] at hl
      cases r <;>
      · intro x hx
        have h2 := h x
        simp only [SReac.allSides, List.mem_append] at hx h2
        rcases hx with (((hx | hx) | hx) | hx) | hx
        all_goals first | exact hl x hx | exact h2 (by simp [hx])

theorem andThen_keeps {σ : Type} (P : World σ → Prop) (r : Res σ) (f : World σ → Res σ)
    (hr : P r.world) (hf : ∀ w, P w → P (f w).world) : P (r.andThen f).world := by
  unfold Res.andThen
  cases h : r.raised with
  | none => exact hf _ hr
  | some err => exact hr

theorem construct_keeps_models {σ : Type} (e : Env σ) (id : String) (surfsys : Nat)
    (vlhs slhs irhs srhs orhs : List Nat) (kcst : Double) (c : σ) (hd : e.ndebug = false) :
    SReac.speciesInModel e
      (SReac.SReac e id surfsys vlhs slhs irhs srhs orhs kcst c).world.reac := by
  have hempty : ∀ (m : Nat), SReac.speciesInModel e
      { pID := id, pModel := m, pSurfsys := surfsys, pOuter := true, pVLHS := [], pSLHS := [],
        pIRHS := [], pSRHS := [], pORHS := [], pOrder := 0, pKcst := kcst } := by
    intro m x hx
    simp [SReac.allSides] at hx
  unfold SReac.SReac
  by_cases hs : surfsys = 0
  · simp only [hs, beq_self_eq_true, if_true]
    exact hempty 0
  simp only [beq_iff_eq, hs, if_false]
  cases hk : Double.lt kcst Double.zero with
  | true => exact hempty 0
  | false =>
    simp only [Bool.false_eq_true, if_false]
    cases hc : cassert e.ndebug (e.getModel c != 0) with
    | some err => exact hempty _
    | none =>
      simp only []
      refine andThen_keeps (fun w => SReac.speciesInModel e w.reac) _ _ ?_ (fun w hw => hw)
      refine andThen_keeps (fun w => SReac.speciesInModel e w.reac) _ _ ?_
        (fun w hw => setORHS_keeps_models e orhs w hd hw)
      refine andThen_keeps (fun w => SReac.speciesInModel e w.reac) _ _ ?_
        (fun w hw => setSRHS_keeps_models e srhs w hd hw)
      refine andThen_keeps (fun w => SReac.speciesInModel e w.reac) _ _ ?_
        (fun w hw => setIRHS_keeps_models e irhs w hd hw)
      refine andThen_keeps (fun w => SReac.speciesInModel e w.reac) _ _ ?_
        (fun w hw => setSLHS_keeps_models e slhs w hd hw)
      exact setVLHS_keeps_models e vlhs _ hd (hempty _)

theorem construct_foreign {σ : Type} (e : Env σ) (id : String) (surfsys : Nat)
    (vlhs slhs irhs srhs orhs : List Nat) (kcst : Double) (c : σ) (hd : e.ndebug = false)
    (hs : surfsys ≠ 0) (hk : Double.lt kcst Double.zero = false)
    (x : Nat) (hx : x ∈ vlhs ++ slhs ++ irhs ++ srhs ++ orhs) (hf : e.specModel x ≠ e.getModel c) :
    (SReac.SReac e id surfsys vlhs slhs irhs srhs orhs kcst c).raised = some Err.assertFail := by
  cases hr : (SReac.SReac e id surfsys vlhs slhs irhs srhs orhs kcst c).raised with
  | none =>
    exfalso
    rcases (construct_returned e id surfsys vlhs slhs irhs srhs orhs kcst c hr).2.2.2 with h | h
    · simp [hd] at h
    · exact hf (h x hx)
  | some err =>
    unfold SReac.SReac at hr
    simp only [beq_iff_eq, hs, if_false, hk, Bool.false_eq_true] at hr
    cases hc : cassert e.ndebug (e.getModel c != 0) with
    | some err2 =>
      simp only [hc] at hr
      have h2 : err2 = err := by simpa using hr
      rw [← h2, (cassert_eq_some hc).1]
    | none =>
      simp only [hc] at hr
      rcases andThen_raised _ _ _ hr with h1 | ⟨h1, -⟩
      · rw [body_raised e vlhs slhs irhs srhs orhs _ err h1]
      · exfalso
        rcases body_returned_models e vlhs slhs irhs srhs orhs _ h1 with h | h
        · simp [hd] at h
        · exact hf (h x hx)

theorem reachable_speciesInModel {σ : Type} (e : Env σ) (w : World σ) (hd : e.ndebug = false)
    (hw : Reachable e w) : SReac.speciesInModel e w.reac := by
  induction hw with
  | construct id surfsys vlhs slhs irhs srhs orhs kcst c h =>
    exact construct_keeps_models e id surfsys vlhs slhs irhs srhs orhs kcst c hd
  | call w k _ h ih =>
    have hstep := run_reacStep e k w h
    revert hstep
    generalize (k.run e w).world.reac = r2
    intro hstep
    cases hstep with
    | same => exact ih
    | kcst k2 hk => exact ih
    | id s => exact ih
    | outer b => exact ih
    | cleared =>
      intro x hx
      simp [SReac.allSides] at hx
    | _ v hv =>
      have hv2 : ∀ x ∈ v, e.specModel x = w.reac.pModel := by
        rcases hv with hv | hv
        · simp [hd] at hv
        · exact hv
      intro x hx
      have h2 := ih x
      simp only [SReac.allSides, List.mem_append] at hx h2
      rcases hx with (((hx | hx) | hx) | hx) | hx
      all_goals first | exact hv2 x hx | exact h2 (by simp [hx])

/-! ## The five vectors and their union -/

/-- C1: `getAllSpecs` returns the first-occurrence deduplication of
`VLHS ++ SLHS ++ IRHS ++ SRHS ++ ORHS`; in particular the species of the result
are ordered by the position of their first occurrence in that concatenation. -/
theorem getAllSpecs_is_firstOccurrenceDedup (r : SReac) :
    SReac.getAllSpecs r
        = firstOccurrenceDedup (r.pVLHS ++ r.pSLHS ++ r.pIRHS ++ r.pSRHS ++ r.pORHS)
      ∧ (SReac.getAllSpecs r).Pairwise (fun a b =>
          (r.pVLHS ++ r.pSLHS ++ r.pIRHS ++ r.pSRHS ++ r.pORHS).indexOf a
            < (r.pVLHS ++ r.pSLHS ++ r.pIRHS ++ r.pSRHS ++ r.pORHS).indexOf b) := by
  have h := getAllSpecs_eq r
  refine ⟨h, ?_⟩
  rw [h]
  exact pairwise_firstOccurrenceDedup _

/-- C2: the list returned by `getAllSpecs` has no repeated element, and a species
is in it exactly when it is in one of `VLHS`, `SLHS`, `IRHS`, `SRHS`, `ORHS`. -/
theorem getAllSpecs_nodup_and_mem (r : SReac) :
    (SReac.getAllSpecs r).Nodup
      ∧ ∀ x : Nat, x ∈ SReac.getAllSpecs r
          ↔ (x ∈ r.pVLHS ∨ x ∈ r.pSLHS ∨ x ∈ r.pIRHS ∨ x ∈ r.pSRHS ∨ x ∈ r.pORHS) := by
  rw [getAllSpecs_eq]
  refine ⟨nodup_firstOccurrenceDedup _, ?_⟩
  intro x
  rw [mem_firstOccurrenceDedup]
  simp [SReac.allSides, or_assoc]

/-! ## Order -/

/-- C3: `order == |VLHS| + |SLHS|` in every state reachable from a successful
construction by the setters and teardown; and it holds right after any call of
`setVLHS` or `setSLHS` that returns, whatever the state before the call was. -/
theorem order_eq_reactant_count {σ : Type} (e : Env σ) (w : World σ) :
    (Reachable e w → w.reac.pOrder = w.reac.pVLHS.length + w.reac.pSLHS.length)
      ∧ (∀ a : VecRef, (SReac.setVLHS e a w).raised = none →
          (SReac.setVLHS e a w).world.reac.pOrder
            = (SReac.setVLHS e a w).world.reac.pVLHS.length
              + (SReac.setVLHS e a w).world.reac.pSLHS.length)
      ∧ (∀ a : VecRef, (SReac.setSLHS e a w).raised = none →
          (SReac.setSLHS e a w).world.reac.pOrder
            = (SReac.setSLHS e a w).world.reac.pVLHS.length
              + (SReac.setSLHS e a w).world.reac.pSLHS.length) := by
  refine ⟨?_, ?_, ?_⟩
  · intro hw
    induction hw with
    | construct id surfsys vlhs slhs irhs srhs orhs kcst c h =>
      rw [construct_returned_eq e id surfsys vlhs slhs irhs srhs orhs kcst c h]
      rfl
    | call w k _ h ih =>
      have hstep := run_reacStep e k w h
      revert hstep
      generalize (k.run e w).world.reac = r2
      intro hstep
      cases hstep <;> first | exact ih | rfl
  · intro a h
    rw [setVLHS_read e a w] at h ⊢
    rw [setVLHS_returned e _ w h]
  · intro a h
    rw [setSLHS_read e a w] at h ⊢
    rw [setSLHS_returned e _ w h]

/-- Witness for C3 on the sample reaction `101 + 102 + 102 -> ...`: its order is
`1 + 2`, it is `3 + 2` after `setVLHS [101, 101, 101]`, and `0 + 2` after
`setVLHS` called with a reference to the reaction's own `VLHS`. -/
theorem order_eq_reactant_count_witness :
    Reachable (sampleEnv false) (sampleWorld false)
      ∧ (sampleWorld false).reac.pOrder = 1 + 2
      ∧ (SReac.setVLHS (sampleEnv false) (VecRef.ext [101, 101, 101])
          (sampleWorld false)).raised = none
      ∧ (SReac.setVLHS (sampleEnv false) (VecRef.ext [101, 101, 101])
          (sampleWorld false)).world.reac.pOrder
          = 3 + 2
      ∧ (SReac.setVLHS (sampleEnv false) VecRef.pVLHS (sampleWorld false)).world.reac.pOrder
          = 0 + 2 := by
  have hr := sampleWorld_reachable false
  have h := order_eq_reactant_count (sampleEnv false) (sampleWorld false)
  refine ⟨hr, ?_, by decide, ?_, ?_⟩
  · rw [h.1 hr]
    decide
  · rw [h.2.1 (VecRef.ext [101, 101, 101]) (by decide)]
    decide
  · rw [h.2.1 VecRef.pVLHS (by decide)]
    decide

/-! ## The rate constant -/

/-- C4: the constructor raises `ArgErr` whenever the `Surfsys` pointer is null
or the rate constant is below zero, whatever the other arguments are.  With a
non-null pointer and the rate constant `0.0` neither check fires: all that can be
raised is an assertion failure or what `_handleSReacAdd` raises on the completely
built object, and the construction runs to that handler whenever the model
pointer is non-null and the species belong to that model. -/
theorem construct_argument_checks {σ : Type} (e : Env σ) (id : String) (surfsys : Nat)
    (vlhs slhs irhs srhs orhs : List Nat) (kcst : Double) (c : σ) :
    ((surfsys = 0 ∨ Double.lt kcst Double.zero = true) →
        ∃ msg, (SReac.SReac e id surfsys vlhs slhs irhs srhs orhs kcst c).raised
          = some (Err.ArgErr msg))
      ∧ (surfsys ≠ 0 →
          (∀ err, (SReac.SReac e id surfsys vlhs slhs irhs srhs orhs Double.zero c).raised
              = some err →
            err = Err.assertFail
              ∨ (e.handleSReacAdd c
                  (SReac.built e id surfsys vlhs slhs irhs srhs orhs Double.zero c)).2 = some err)
          ∧ ((e.ndebug = true ∨ e.getModel c ≠ 0) →
              (e.ndebug = true ∨ ∀ x ∈ vlhs ++ slhs ++ irhs ++ srhs ++ orhs,
                e.specModel x = e.getModel c) →
              (SReac.SReac e id surfsys vlhs slhs irhs srhs orhs Double.zero c).raised
                = (e.handleSReacAdd c
                    (SReac.built e id surfsys vlhs slhs irhs srhs orhs Double.zero c)).2)) := by
  have hz : Double.lt Double.zero Double.zero = false := by
    simp [Double.lt, Double.zero]
  refine ⟨?_, ?_⟩
  · intro h
    by_cases hs : surfsys = 0
    · simp [SReac.SReac, hs]
    · have hk : Double.lt kcst Double.zero = true := by
        rcases h with h | h
        · exact absurd h hs
        · exact h
      simp [SReac.SReac, hs, hk]
  · intro hs
    refine ⟨?_, ?_⟩
    · intro err h
      cases hc : cassert e.ndebug (e.getModel c != 0) with
      | some err2 =>
        left
        unfold SReac.SReac at h
        simp only [beq_iff_eq, hs, if_false, hz, Bool.false_eq_true, hc] at h
        have h2 : err2 = err := by simpa using h
        rw [← h2]
        exact (cassert_eq_some hc).1
      | none =>
        have hm : e.ndebug = true ∨ e.getModel c ≠ 0 := by
          rcases cassert_eq_none hc with h1 | h1
          · exact Or.inl h1
          · exact Or.inr (by simpa using h1)
        have h0 := h
        unfold SReac.SReac at h
        simp only [beq_iff_eq, hs, if_false, hz, Bool.false_eq_true, hc] at h
        rcases andThen_raised _ _ _ h with h1 | ⟨h1, -⟩
        · exact Or.inl (body_raised e vlhs slhs irhs srhs orhs _ err h1)
        · right
          have hv := body_returned_models e vlhs slhs irhs srhs orhs _ h1
          rw [construct_of_ok e id surfsys vlhs slhs irhs srhs orhs Double.zero c hs hz hm hv]
            at h0
          exact h0
    · intro hm hv
      rw [construct_of_ok e id surfsys vlhs slhs irhs srhs orhs Double.zero c hs hz hm hv]

/-- Witness for C4: no container, a negative rate constant, and an accepted
rate constant of zero, in the sample container. -/
theorem construct_argument_checks_witness :
    (∃ msg, (SReac.SReac (sampleEnv false) "R2" 0 [101] [] [] [] [] (Double.fin 1)
        ⟨[], 0⟩).raised = some (Err.ArgErr msg))
      ∧ (∃ msg, (SReac.SReac (sampleEnv false) "R2" 7 [101] [] [] [] [] (Double.fin (-1))
        ⟨[], 0⟩).raised = some (Err.ArgErr msg))
      ∧ (SReac.SReac (sampleEnv false) "R2" 7 [101] [] [] [] [] Double.zero ⟨[], 0⟩).raised
          = none :=
  ⟨(construct_argument_checks (sampleEnv false) "R2" 0 [101] [] [] [] [] (Double.fin 1)
      ⟨[], 0⟩).1 (Or.inl rfl),
    (construct_argument_checks (sampleEnv false) "R2" 7 [101] [] [] [] [] (Double.fin (-1))
      ⟨[], 0⟩).1 (Or.inr (by decide)),
    ((construct_argument_checks (sampleEnv false) "R2" 7 [101] [] [] [] [] Double.zero
      ⟨[], 0⟩).2 (by decide)).2 (Or.inr (by decide)) (Or.inr (by decide))⟩

/-- C5: on a live reaction `setKcst v` raises `ArgErr` exactly when `v < 0.0`;
then the state is the one before the call; otherwise the call returns and the
stored rate constant is `v` (so `0.0` is accepted). -/
theorem setKcst_rejects_iff_negative {σ : Type} (e : Env σ) (v : Double) (w : World σ)
    (hlive : w.reac.pSurfsys ≠ 0) :
    ((∃ msg, (SReac.setKcst e v w).raised = some (Err.ArgErr msg))
        ↔ Double.lt v Double.zero = true)
      ∧ ((SReac.setKcst e v w).raised ≠ none ↔ Double.lt v Double.zero = true)
      ∧ ((SReac.setKcst e v w).raised ≠ none → (SReac.setKcst e v w).world = w)
      ∧ ((SReac.setKcst e v w).raised = none → (SReac.setKcst e v w).world.reac.pKcst = v)
      ∧ (SReac.setKcst e Double.zero w).raised = none
      ∧ (SReac.setKcst e Double.zero w).world.reac.pKcst = Double.zero := by
  have hc : cassert e.ndebug (w.reac.pSurfsys != 0) = none := by
    simp [cassert, hlive]
  have hz : Double.lt Double.zero Double.zero = false := by
    simp [Double.lt, Double.zero]
  cases hk : Double.lt v Double.zero with
  | true => simp [SReac.setKcst, hc, hk, hz]
  | false => simp [SReac.setKcst, hc, hk, hz]

/-- Witness for C5 on the sample reaction: `-1` is refused and leaves the rate
constant at `2`. -/
theorem setKcst_rejects_iff_negative_witness :
    (sampleWorld false).reac.pSurfsys ≠ 0
      ∧ ((SReac.setKcst (sampleEnv false) (Double.fin (-1)) (sampleWorld false)).raised ≠ none
          ↔ Double.lt (Double.fin (-1)) Double.zero = true)
      ∧ (SReac.setKcst (sampleEnv false) (Double.fin (-1)) (sampleWorld false)).world.reac.pKcst
          = Double.fin 2 :=
  ⟨by decide,
    (setKcst_rejects_iff_negative (sampleEnv false) (Double.fin (-1)) (sampleWorld false)
      (by decide)).2.1,
    by decide⟩

/-- C6, as stated, fails: a NaN rate constant passes the check `pKcst < 0.0` of
the constructor, is stored, and is not `>= 0.0`. -/
theorem kcst_nan_is_accepted :
    Reachable (sampleEnv false)
        (SReac.SReac (sampleEnv false) "R1" 7 [101] [] [] [] [] Double.nan ⟨[], 0⟩).world
      ∧ (SReac.SReac (sampleEnv false) "R1" 7 [101] [] [] [] [] Double.nan ⟨[], 0⟩).world.reac.pKcst
          = Double.nan
      ∧ Double.ge
          (SReac.SReac (sampleEnv false) "R1" 7 [101] [] [] [] [] Double.nan ⟨[], 0⟩).world.reac.pKcst
          Double.zero = false :=
  ⟨Reachable.construct _ _ _ _ _ _ _ _ _ (by decide), by decide, by decide⟩

/-- C6, amended: in every state reachable from a successful construction by the
setters (calls that throw included) and teardown, the stored rate constant is
never below zero: `pKcst < 0.0` is false, and `pKcst >= 0.0` holds unless the
rate constant is NaN. -/
theorem kcst_never_below_zero {σ : Type} (e : Env σ) (w : World σ) (hw : Reachable e w) :
    Double.lt w.reac.pKcst Double.zero = false
      ∧ (w.reac.pKcst ≠ Double.nan → Double.ge w.reac.pKcst Double.zero = true) := by
  have hlt : Double.lt w.reac.pKcst Double.zero = false := by
    induction hw with
    | construct id surfsys vlhs slhs irhs srhs orhs kcst c h =>
      rw [construct_returned_eq e id surfsys vlhs slhs irhs srhs orhs kcst c h]
      exact (construct_returned e id surfsys vlhs slhs irhs srhs orhs kcst c h).2.1
    | call w k _ h ih =>
      have hstep := run_reacStep e k w h
      revert hstep
      generalize (k.run e w).world.reac = r2
      intro hstep
      cases hstep with
      | kcst k2 hk => exact hk
      | cleared => simp [Double.lt, Double.zero]
      | _ => exact ih
  exact ⟨hlt, double_ge_zero_of_not_lt _ hlt⟩

/-- Witness for the amended C6: the sample reaction, after a refused
`setKcst (-1)` and an accepted `setKcst 0`. -/
theorem kcst_never_below_zero_witness :
    Reachable (sampleEnv false)
        ((Call.setKcst Double.zero).run (sampleEnv false)
          ((Call.setKcst (Double.fin (-1))).run (sampleEnv false) (sampleWorld false)).world).world
      ∧ Double.lt
          ((Call.setKcst Double.zero).run (sampleEnv false)
            ((Call.setKcst (Double.fin (-1))).run (sampleEnv false)
              (sampleWorld false)).world).world.reac.pKcst
          Double.zero = false := by
  have hr : Reachable (sampleEnv false)
      ((Call.setKcst Double.zero).run (sampleEnv false)
        ((Call.setKcst (Double.fin (-1))).run (sampleEnv false) (sampleWorld false)).world).world :=
    Reachable.call _ _ (Reachable.call _ _ (sampleWorld_reachable false) (by decide)) (by decide)
  exact ⟨hr, (kcst_never_below_zero (sampleEnv false) _ hr).1⟩

/-! ## Renaming -/

/-- C7: on a live reaction `setID newId` hands the old and the new id to the
container's handler; what the call raises is what the handler raises.  If the
handler raises, every member of the reaction, the id included, is as before; if
it returns, the id is `newId` and the other members are as before. -/
theorem setID_commits_iff_accepted {σ : Type} (e : Env σ) (id : String) (w : World σ)
    (hlive : w.reac.pSurfsys ≠ 0) :
    (SReac.setID e id w).raised = (e.handleSReacIDChange w.surfsys w.reac.pID id).2
      ∧ (SReac.setID e id w).world.surfsys = (e.handleSReacIDChange w.surfsys w.reac.pID id).1
      ∧ ((e.handleSReacIDChange w.surfsys w.reac.pID id).2 ≠ none →
          (SReac.setID e id w).world.reac = w.reac)
      ∧ ((e.handleSReacIDChange w.surfsys w.reac.pID id).2 = none →
          (SReac.setID e id w).world.reac = { w.reac with pID := id }) := by
  have hc : cassert e.ndebug (w.reac.pSurfsys != 0) = none := by
    simp [cassert, hlive]
  unfold SReac.setID
  simp only [hc, beq_iff_eq, hlive, if_false]
  cases hh : e.handleSReacIDChange w.surfsys w.reac.pID id with
  | mk c r =>
    cases r with
    | some err => simp
    | none => simp

/-- Witness for C7 in the sample container, which holds the ids `R1` and `R0`:
renaming `R1` to `R0` is refused and the id stays, renaming to `R9` goes
through. -/
theorem setID_commits_iff_accepted_witness :
    (sampleWorld false).reac.pSurfsys ≠ 0
      ∧ (SReac.setID (sampleEnv false) "R0"
          ⟨(sampleWorld false).reac, ⟨["R1", "R0"], 0⟩⟩).world.reac = (sampleWorld false).reac
      ∧ (SReac.setID (sampleEnv false) "R9"
          ⟨(sampleWorld false).reac, ⟨["R1", "R0"], 0⟩⟩).world.reac
          = { (sampleWorld false).reac with pID := "R9" } :=
  ⟨by decide,
    (setID_commits_iff_accepted (sampleEnv false) "R0"
      ⟨(sampleWorld false).reac, ⟨["R1", "R0"], 0⟩⟩ (by decide)).2.2.1 (by decide),
    (setID_commits_iff_accepted (sampleEnv false) "R9"
      ⟨(sampleWorld false).reac, ⟨["R1", "R0"], 0⟩⟩ (by decide)).2.2.2 (by decide)⟩

/-! ## Teardown -/

/-- C8: the destructor is idempotent.  It does nothing on a reaction whose
container pointer is null; and after a destructor call that returned, that
pointer is null, so a second call leaves the reaction and the container as the
first one left them: the container's delete handler has run once, on the state
before the first call.  The same holds for a destructor call that follows a
`_handleSelfDelete` that returned. -/
theorem destructor_idempotent {σ : Type} (e : Env σ) (w : World σ)
    (h : (SReac.destructor e w).raised = none) :
    SReac.destructor e (SReac.destructor e w).world = SReac.destructor e w
      ∧ (SReac.destructor e w).world.reac.pSurfsys = 0
      ∧ (w.reac.pSurfsys ≠ 0 →
          (SReac.destructor e w).world.surfsys = (e.handleSReacDel w.surfsys w.reac).1
            ∧ (SReac.destructor e (SReac.destructor e w).world).world.surfsys
                = (e.handleSReacDel w.surfsys w.reac).1)
      ∧ (w.reac.pSurfsys = 0 → SReac.destructor e w = ⟨w, none⟩)
      ∧ ((SReac._handleSelfDelete e w).raised = none →
          SReac.destructor e (SReac._handleSelfDelete e w).world
            = ⟨(SReac._handleSelfDelete e w).world, none⟩) := by
  have hnull : ∀ w2 : World σ, w2.reac.pSurfsys = 0 → SReac.destructor e w2 = ⟨w2, none⟩ := by
    intro w2 h2
    simp [SReac.destructor, h2]
  have hp : (SReac.destructor e w).world.reac.pSurfsys = 0 := by
    by_cases h0 : w.reac.pSurfsys = 0
    · rw [hnull w h0]
      exact h0
    · unfold SReac.destructor SReac._handleSelfDelete at h ⊢
      simp only [beq_iff_eq, h0, if_false] at h ⊢
      cases hd : e.handleSReacDel w.surfsys w.reac with
      | mk c r =>
        rw [hd] at h
        cases r with
        | some err => simp at h
        | none => rfl
  have h2 : SReac.destructor e (SReac.destructor e w).world = SReac.destructor e w := by
    rw [hnull _ hp]
    conv => rhs; rw [res_eta (SReac.destructor e w), h]
  refine ⟨h2, hp, ?_, hnull w, ?_⟩
  swap
  · intro hs
    apply hnull
    unfold SReac._handleSelfDelete at hs ⊢
    by_cases h0 : w.reac.pSurfsys = 0
    · simp [h0] at hs
    · simp only [beq_iff_eq, h0, if_false] at hs ⊢
      cases hd : e.handleSReacDel w.surfsys w.reac with
      | mk c r =>
        rw [hd] at hs
        cases r with
        | some err => simp at hs
        | none => rfl
  intro h0
  have h3 : (SReac.destructor e w).world.surfsys = (e.handleSReacDel w.surfsys w.reac).1 := by
    unfold SReac.destructor SReac._handleSelfDelete at h ⊢
    simp only [beq_iff_eq, h0, if_false] at h ⊢
    cases hd : e.handleSReacDel w.surfsys w.reac with
    | mk c r =>
      rw [hd] at h
      cases r with
      | some err => simp at h
      | none => rfl
  exact ⟨h3, by rw [h2]; exact h3⟩

/-- Witness for C8: after two destructor calls on the sample reaction the
container has dropped the id and its delete handler has run once. -/
theorem destructor_idempotent_witness :
    (SReac.destructor (sampleEnv false) (sampleWorld false)).raised = none
      ∧ SReac.destructor (sampleEnv false)
          (SReac.destructor (sampleEnv false) (sampleWorld false)).world
          = SReac.destructor (sampleEnv false) (sampleWorld false)
      ∧ (SReac.destructor (sampleEnv false)
          (SReac.destructor (sampleEnv false) (sampleWorld false)).world).world.surfsys
          = ⟨[], 1⟩ := by
  have h := destructor_idempotent (sampleEnv false) (sampleWorld false) (by decide)
  refine ⟨by decide, h.1, ?_⟩
  rw [(h.2.2.1 (by decide)).2]
  decide

/-- C9: on a live reaction whose container's delete handler returns,
`_handleSelfDelete` (and so the destructor) first runs that handler on the
reaction as it is before the call, with vectors, order and rate constant intact,
and then leaves the five vectors empty, the order 0, the rate constant 0.0 and
both pointers null; `getAllSpecs` of the result is empty. -/
theorem handleSelfDelete_notifies_then_clears {σ : Type} (e : Env σ) (w : World σ)
    (hlive : w.reac.pSurfsys ≠ 0) (hret : (e.handleSReacDel w.surfsys w.reac).2 = none) :
    SReac._handleSelfDelete e w
        = ⟨⟨{ pID := w.reac.pID, pModel := 0, pSurfsys := 0, pOuter := w.reac.pOuter, pVLHS := [],
              pSLHS := [], pIRHS := [], pSRHS := [], pORHS := [], pOrder := 0,
              pKcst := Double.zero },
            (e.handleSReacDel w.surfsys w.reac).1⟩, none⟩
      ∧ SReac.destructor e w = SReac._handleSelfDelete e w
      ∧ SReac.getAllSpecs (SReac._handleSelfDelete e w).world.reac = [] := by
  have h1 : SReac._handleSelfDelete e w
        = ⟨⟨{ pID := w.reac.pID, pModel := 0, pSurfsys := 0, pOuter := w.reac.pOuter, pVLHS := [],
              pSLHS := [], pIRHS := [], pSRHS := [], pORHS := [], pOrder := 0,
              pKcst := Double.zero },
            (e.handleSReacDel w.surfsys w.reac).1⟩, none⟩ := by
    unfold SReac._handleSelfDelete
    simp only [beq_iff_eq, hlive, if_false]
    cases hd : e.handleSReacDel w.surfsys w.reac with
    | mk c r =>
      rw [hd] at hret
      simp only at hret
      subst hret
      rfl
  refine ⟨h1, ?_, ?_⟩
  · simp [SReac.destructor, hlive]
  · rw [h1]
    rfl

/-- Witness for C9 on the sample reaction. -/
theorem handleSelfDelete_notifies_then_clears_witness :
    (sampleWorld false).reac.pSurfsys ≠ 0
      ∧ (sampleWorld false).reac.pVLHS = [101]
      ∧ (SReac._handleSelfDelete (sampleEnv false) (sampleWorld false)).world.surfsys = ⟨[], 1⟩
      ∧ SReac.getAllSpecs
          (SReac._handleSelfDelete (sampleEnv false) (sampleWorld false)).world.reac = [] :=
  ⟨by decide, by decide, by decide,
    (handleSelfDelete_notifies_then_clears (sampleEnv false) (sampleWorld false) (by decide)
      (by decide)).2.2⟩

/-! ## Species and models -/

/-- C10, as stated, fails: a species of another model handed to `setVLHS` or to
the constructor trips an `assert`, which is not an `ArgErr`; and in a build with
`NDEBUG` the call returns and the species is stored. -/
theorem foreign_species_is_not_ArgErr :
    (sampleEnv false).specModel 201 ≠ (sampleWorld false).reac.pModel
      ∧ (SReac.setVLHS (sampleEnv false) (VecRef.ext [201]) (sampleWorld false)).raised
          = some Err.assertFail
      ∧ (SReac.SReac (sampleEnv false) "R2" 7 [201] [] [] [] [] (Double.fin 1) ⟨[], 0⟩).raised
          = some Err.assertFail
      ∧ (SReac.setVLHS (sampleEnv true) (VecRef.ext [201]) (sampleWorld true)).raised = none
      ∧ (SReac.setVLHS (sampleEnv true) (VecRef.ext [201]) (sampleWorld true)).world.reac.pVLHS
          = [201] :=
  ⟨by decide, by decide, by decide, by decide, by decide⟩

/-- C10, amended: in a build with assertions enabled, every species in the five
vectors of a reachable reaction belongs to the reaction's model.  A setter call
whose argument holds a species of another model ends in an assertion failure
(not in an `ArgErr`), with only species of the reaction's model in the vectors.
A constructor call that passes such a species never returns and stores no such
species either: it ends in an assertion failure, unless the container is absent
or the rate constant is below zero, in which case the `ArgErr` of that check is
raised before any species is looked at. -/
theorem species_belong_to_model {σ : Type} (e : Env σ) (w : World σ) (hd : e.ndebug = false)
    (hw : Reachable e w) :
    (∀ x ∈ w.reac.pVLHS ++ w.reac.pSLHS ++ w.reac.pIRHS ++ w.reac.pSRHS ++ w.reac.pORHS,
        e.specModel x = w.reac.pModel)
      ∧ (∀ (a : VecRef) (x : Nat), x ∈ a.read w.reac → e.specModel x ≠ w.reac.pModel →
          ((SReac.setVLHS e a w).raised = some Err.assertFail
            ∧ SReac.speciesInModel e (SReac.setVLHS e a w).world.reac)
          ∧ ((SReac.setSLHS e a w).raised = some Err.assertFail
            ∧ SReac.speciesInModel e (SReac.setSLHS e a w).world.reac)
          ∧ ((SReac.setIRHS e a w).raised = some Err.assertFail
            ∧ SReac.speciesInModel e (SReac.setIRHS e a w).world.reac)
          ∧ ((SReac.setSRHS e a w).raised = some Err.assertFail
            ∧ SReac.speciesInModel e (SReac.setSRHS e a w).world.reac)
          ∧ ((SReac.setORHS e a w).raised = some Err.assertFail
            ∧ SReac.speciesInModel e (SReac.setORHS e a w).world.reac))
      ∧ (∀ (id : String) (surfsys : Nat) (vlhs slhs irhs srhs orhs : List Nat) (kcst : Double)
          (c : σ) (x : Nat),
          x ∈ vlhs ++ slhs ++ irhs ++ srhs ++ orhs → e.specModel x ≠ e.getModel c →
          (SReac.SReac e id surfsys vlhs slhs irhs srhs orhs kcst c).raised ≠ none
            ∧ (surfsys ≠ 0 → Double.lt kcst Double.zero = false →
                (SReac.SReac e id surfsys vlhs slhs irhs srhs orhs kcst c).raised
                  = some Err.assertFail)
            ∧ ((surfsys = 0 ∨ Double.lt kcst Double.zero = true) →
                ∃ msg, (SReac.SReac e id surfsys vlhs slhs irhs srhs orhs kcst c).raised
                  = some (Err.ArgErr msg))
            ∧ SReac.speciesInModel e
                (SReac.SReac e id surfsys vlhs slhs irhs srhs orhs kcst c).world.reac) := by
  have hinv := reachable_speciesInModel e w hd hw
  refine ⟨hinv, ?_, ?_⟩
  · intro a x hx hf
    have hext : ∃ v, a = VecRef.ext v := by
      cases a with
      | ext v => exact ⟨v, rfl⟩
      | _ =>
        exfalso
        apply hf
        apply hinv x
        simp only [VecRef.read] at hx
        simp [SReac.allSides, hx]
    obtain ⟨v, rfl⟩ := hext
    have hx2 : x ∈ v := hx
    exact ⟨⟨setVLHS_foreign e v w hd x hx2 hf, setVLHS_keeps_models e v w hd hinv⟩,
      ⟨setSLHS_foreign e v w hd x hx2 hf, setSLHS_keeps_models e v w hd hinv⟩,
      ⟨setIRHS_foreign e v w hd x hx2 hf, setIRHS_keeps_models e v w hd hinv⟩,
      ⟨setSRHS_foreign e v w hd x hx2 hf, setSRHS_keeps_models e v w hd hinv⟩,
      ⟨setORHS_foreign e v w hd x hx2 hf, setORHS_keeps_models e v w hd hinv⟩⟩
  · intro id surfsys vlhs slhs irhs srhs orhs kcst c x hx hf
    have hassert : surfsys ≠ 0 → Double.lt kcst Double.zero = false →
        (SReac.SReac e id surfsys vlhs slhs irhs srhs orhs kcst c).raised
          = some Err.assertFail :=
      fun hs hk => construct_foreign e id surfsys vlhs slhs irhs srhs orhs kcst c hd hs hk x hx hf
    have hargerr : (surfsys = 0 ∨ Double.lt kcst Double.zero = true) →
        ∃ msg, (SReac.SReac e id surfsys vlhs slhs irhs srhs orhs kcst c).raised
          = some (Err.ArgErr msg) := by
      intro h
      by_cases hs : surfsys = 0
      · simp [SReac.SReac, hs]
      · have hk : Double.lt kcst Double.zero = true := by
          rcases h with h | h
          · exact absurd h hs
          · exact h
        simp [SReac.SReac, hs, hk]
    refine ⟨?_, hassert, hargerr,
      construct_keeps_models e id surfsys vlhs slhs irhs srhs orhs kcst c hd⟩
    by_cases hs : surfsys = 0
    · obtain ⟨msg, hm⟩ := hargerr (Or.inl hs)
      rw [hm]
      simp
    · cases hk : Double.lt kcst Double.zero with
      | true =>
        obtain ⟨msg, hm⟩ := hargerr (Or.inr hk)
        rw [hm]
        simp
      | false =>
        rw [hassert hs hk]
        simp

/-- Witness for the amended C10: the sample reaction, and `setSLHS [102, 201]`
on it, which stops at the species `201` of model 2 with only `102` copied; and
a constructor call with the species `201` and no container. -/
theorem species_belong_to_model_witness :
    (sampleEnv false).ndebug = false
      ∧ Reachable (sampleEnv false) (sampleWorld false)
      ∧ (∀ x ∈ [101] ++ [102, 102] ++ [103] ++ [] ++ [101], (sampleEnv false).specModel x = 1)
      ∧ (SReac.setSLHS (sampleEnv false) (VecRef.ext [102, 201]) (sampleWorld false)).raised
          = some Err.assertFail
      ∧ (SReac.setSLHS (sampleEnv false) (VecRef.ext [102, 201])
          (sampleWorld false)).world.reac.pSLHS = [102]
      ∧ (∃ msg, (SReac.SReac (sampleEnv false) "R2" 0 [201] [] [] [] [] (Double.fin 1)
          ⟨[], 0⟩).raised = some (Err.ArgErr msg)) :=
  ⟨rfl, sampleWorld_reachable false,
    (species_belong_to_model (sampleEnv false) (sampleWorld false) rfl
      (sampleWorld_reachable false)).1,
    ((species_belong_to_model (sampleEnv false) (sampleWorld false) rfl
      (sampleWorld_reachable false)).2.1 (VecRef.ext [102, 201]) 201 (by decide)
        (by decide)).2.1.1,
    by decide,
    ((species_belong_to_model (sampleEnv false) (sampleWorld false) rfl
      (sampleWorld_reachable false)).2.2 "R2" 0 [201] [] [] [] [] (Double.fin 1) ⟨[], 0⟩ 201
        (by decide) (by decide)).2.2.1 (Or.inl rfl)⟩

/-! ## Construction -/

theorem double_lt_false_of_ge (k : Double) (h : Double.ge k Double.zero = true) :
    Double.lt k Double.zero = false := by
  cases k with
  | nan => rfl
  | negInf => simp [Double.ge, Double.zero] at h
  | posInf => rfl
  | fin q =>
    simp only [Double.ge, Double.zero, decide_eq_true_eq] at h
    simp [Double.lt, Double.zero, h]

/-- C11: a construction that returns has built a reaction with the id, the five
vectors and the rate constant it was given, the order `|vlhs| + |slhs|`, the
model of the container, and the orientation outer.  And the construction does
return when the container is present, `kcst >= 0.0`, the container's model
pointer is non-null, all species belong to that model and `_handleSReacAdd`
accepts the reaction. -/
theorem construct_yields {σ : Type} (e : Env σ) (id : String) (surfsys : Nat)
    (vlhs slhs irhs srhs orhs : List Nat) (kcst : Double) (c : σ) :
    ((SReac.SReac e id surfsys vlhs slhs irhs srhs orhs kcst c).raised = none →
        (SReac.SReac e id surfsys vlhs slhs irhs srhs orhs kcst c).world.reac
          = { pID := id, pModel := e.getModel c, pSurfsys := surfsys, pOuter := true,
              pVLHS := vlhs, pSLHS := slhs, pIRHS := irhs, pSRHS := srhs, pORHS := orhs,
              pOrder := vlhs.length + slhs.length, pKcst := kcst })
      ∧ (surfsys ≠ 0 → Double.ge kcst Double.zero = true → e.getModel c ≠ 0 →
          (∀ x ∈ vlhs ++ slhs ++ irhs ++ srhs ++ orhs, e.specModel x = e.getModel c) →
          (e.handleSReacAdd c
              { pID := id, pModel := e.getModel c, pSurfsys := surfsys, pOuter := true,
                pVLHS := vlhs, pSLHS := slhs, pIRHS := irhs, pSRHS := srhs, pORHS := orhs,
                pOrder := vlhs.length + slhs.length, pKcst := kcst }).2 = none →
          (SReac.SReac e id surfsys vlhs slhs irhs srhs orhs kcst c).raised = none) := by
  refine ⟨?_, ?_⟩
  · intro h
    rw [construct_returned_eq e id surfsys vlhs slhs irhs srhs orhs kcst c h]
    rfl
  · intro hs hk hm hv hadd
    rw [construct_of_ok e id surfsys vlhs slhs irhs srhs orhs kcst c hs
      (double_lt_false_of_ge kcst hk) (Or.inr hm) (Or.inr hv)]
    exact hadd

/-- Witness for C11: the construction of the sample reaction returns, with the
members it was given and the order `1 + 2`. -/
theorem construct_yields_witness :
    (SReac.SReac (sampleEnv false) "R1" 7 [101] [102, 102] [103] [] [101] (Double.fin 2)
        ⟨[], 0⟩).raised = none
      ∧ (SReac.SReac (sampleEnv false) "R1" 7 [101] [102, 102] [103] [] [101] (Double.fin 2)
          ⟨[], 0⟩).world.reac
          = { pID := "R1", pModel := 1, pSurfsys := 7, pOuter := true, pVLHS := [101],
              pSLHS := [102, 102], pIRHS := [103], pSRHS := [], pORHS := [101], pOrder := 3,
              pKcst := Double.fin 2 } := by
  have h := construct_yields (sampleEnv false) "R1" 7 [101] [102, 102] [103] [] [101]
    (Double.fin 2) ⟨[], 0⟩
  have hr := h.2 (by decide) (by decide) (by decide) (by decide) (by decide)
  exact ⟨hr, h.1 hr⟩

/-- C12: a construction that returns has run the container's `_handleSReacAdd`
once, on the reaction with its five vectors, order and rate constant set: the
container is in the state that one run of the handler leaves.  A construction
refused because the container is absent or the rate constant is below zero
leaves the container in the state it was in. -/
theorem construct_registers {σ : Type} (e : Env σ) (id : String) (surfsys : Nat)
    (vlhs slhs irhs srhs orhs : List Nat) (kcst : Double) (c : σ) :
    ((SReac.SReac e id surfsys vlhs slhs irhs srhs orhs kcst c).raised = none →
        (SReac.SReac e id surfsys vlhs slhs irhs srhs orhs kcst c).world.surfsys
            = (e.handleSReacAdd c
                { pID := id, pModel := e.getModel c, pSurfsys := surfsys, pOuter := true,
                  pVLHS := vlhs, pSLHS := slhs, pIRHS := irhs, pSRHS := srhs, pORHS := orhs,
                  pOrder := vlhs.length + slhs.length, pKcst := kcst }).1
          ∧ (e.handleSReacAdd c
                { pID := id, pModel := e.getModel c, pSurfsys := surfsys, pOuter := true,
                  pVLHS := vlhs, pSLHS := slhs, pIRHS := irhs, pSRHS := srhs, pORHS := orhs,
                  pOrder := vlhs.length + slhs.length, pKcst := kcst }).2 = none)
      ∧ ((surfsys = 0 ∨ Double.lt kcst Double.zero = true) →
          (SReac.SReac e id surfsys vlhs slhs irhs srhs orhs kcst c).raised ≠ none
            ∧ (SReac.SReac e id surfsys vlhs slhs irhs srhs orhs kcst c).world.surfsys = c) := by
  refine ⟨?_, ?_⟩
  · intro h
    obtain ⟨hs, hk, hm, hv⟩ := construct_returned e id surfsys vlhs slhs irhs srhs orhs kcst c h
    have heq := construct_of_ok e id surfsys vlhs slhs irhs srhs orhs kcst c hs hk hm hv
    rw [heq] at h
    rw [heq]
    exact ⟨rfl, h⟩
  · intro h
    by_cases hs : surfsys = 0
    · simp [SReac.SReac, hs]
    · have hk : Double.lt kcst Double.zero = true := by
        rcases h with h | h
        · exact absurd h hs
        · exact h
      simp [SReac.SReac, hs, hk]

/-- Witness for C12 in the container that counts the runs of its add handler:
one run after a construction that returns, none after the two refusals. -/
theorem construct_registers_witness :
    (SReac.SReac countingEnv "R" 3 [101] [102] [] [] [] Double.zero 0).raised = none
      ∧ (SReac.SReac countingEnv "R" 3 [101] [102] [] [] [] Double.zero 0).world.surfsys = 1
      ∧ (SReac.SReac countingEnv "R" 0 [101] [102] [] [] [] Double.zero 0).world.surfsys = 0
      ∧ (SReac.SReac countingEnv "R" 3 [101] [102] [] [] [] (Double.fin (-1)) 0).world.surfsys
          = 0 := by
  have h1 := (construct_registers countingEnv "R" 3 [101] [102] [] [] [] Double.zero 0).1
    (by decide)
  have h2 := (construct_registers countingEnv "R" 0 [101] [102] [] [] [] Double.zero 0).2
    (Or.inl rfl)
  have h3 := (construct_registers countingEnv "R" 3 [101] [102] [] [] [] (Double.fin (-1)) 0).2
    (Or.inr (by decide))
  exact ⟨by decide, h1.1, h2.2, h3.2⟩

/-! ## Kinetic processes -/

/-- C13: in the model of `h()` taken from the spec, a reactant side of two
distinct species at counts `m` and `n` gives `m * n`, a reactant side of one
species twice at count `m` gives `m * (m - 1)`, and the result is 0 as soon as
some species has fewer molecules than the reactant side needs of it. -/
theorem h_order_two (cnt : Nat → Nat) (a b : Nat) (hab : a ≠ b) :
    KProc.h [a, b] cnt = cnt a * cnt b
      ∧ KProc.h [a, a] cnt = cnt a * (cnt a - 1)
      ∧ (∀ (lhs : List Nat) (s : Nat), s ∈ lhs → cnt s < lhs.count s → KProc.h lhs cnt = 0) := by
  have hba : b ≠ a := fun h => hab h.symm
  refine ⟨?_, ?_, ?_⟩
  · unfold KProc.h
    by_cases h0 : cnt a = 0
    · simp [h0, hab, hba, List.count_cons]
    · by_cases h1 : cnt b = 0
      · simp [h1, hab, hba, List.count_cons]
      · simp [h0, h1, hab, hba, List.count_cons, firstOccurrenceDedup, KProc.fallingFactorial]
  · unfold KProc.h
    by_cases h0 : cnt a < 2
    · have h2 : cnt a * (cnt a - 1) = 0 := by
        have : cnt a = 0 ∨ cnt a = 1 := by omega
        rcases this with h | h <;> simp [h]
      simp [h0, h2, List.count_cons]
    · simp [h0, List.count_cons, firstOccurrenceDedup, KProc.fallingFactorial]
  · intro lhs s hs hlt
    unfold KProc.h
    have : lhs.any (fun s => decide (cnt s < lhs.count s)) = true := by
      rw [List.any_eq_true]
      exact ⟨s, hs, by simpa using hlt⟩
    simp [this]

/-- Witness for C13: species 1 and 2 at counts 3 and 5, species 1 twice at count
3, and species 1 twice at count 1. -/
theorem h_order_two_witness :
    KProc.h [1, 2] (fun s => if s = 1 then 3 else 5) = 3 * 5
      ∧ KProc.h [1, 1] (fun s => if s = 1 then 3 else 5) = 3 * (3 - 1)
      ∧ KProc.h [1, 1] (fun _ => 1) = 0 :=
  ⟨(h_order_two (fun s => if s = 1 then 3 else 5) 1 2 (by decide)).1,
    (h_order_two (fun s => if s = 1 then 3 else 5) 1 2 (by decide)).2.1,
    (h_order_two (fun _ => 1) 1 2 (by decide)).2.2 [1, 1] 1 (by decide) (by decide)⟩

/-! ## The vector setters -/

theorem setVLHS_frame {σ : Type} (e : Env σ) (a : VecRef) (w : World σ) :
    (SReac.setVLHS e a w).world
      = { w with reac := { w.reac with
            pVLHS := (SReac.setVLHS e a w).world.reac.pVLHS,
            pOrder := (SReac.setVLHS e a w).world.reac.pOrder } } := by
  rw [setVLHS_read e a w]
  generalize a.read { w.reac with pVLHS := [] } = v
  rw [setVLHS_ext_eq]
  cases hc : cassert e.ndebug (w.reac.pSurfsys != 0) with
  | some err => rfl
  | none =>
    cases hq : SReac.pushChecked e w.reac.pModel [] v with
    | mk l r =>
      cases r with
      | some err => rfl
      | none => rfl

theorem setSLHS_frame {σ : Type} (e : Env σ) (a : VecRef) (w : World σ) :
    (SReac.setSLHS e a w).world
      = { w with reac := { w.reac with
            pSLHS := (SReac.setSLHS e a w).world.reac.pSLHS,
            pOrder := (SReac.setSLHS e a w).world.reac.pOrder } } := by
  rw [setSLHS_read e a w]
  generalize a.read { w.reac with pSLHS := [] } = v
  rw [setSLHS_ext_eq]
  cases hc : cassert e.ndebug (w.reac.pSurfsys != 0) with
  | some err => rfl
  | none =>
    cases hq : SReac.pushChecked e w.reac.pModel [] v with
    | mk l r =>
      cases r with
      | some err => rfl
      | none => rfl

theorem setIRHS_frame {σ : Type} (e : Env σ) (a : VecRef) (w : World σ) :
    (SReac.setIRHS e a w).world
      = { w with reac := { w.reac with
            pIRHS := (SReac.setIRHS e a w).world.reac.pIRHS } } := by
  rw [setIRHS_read e a w]
  generalize a.read { w.reac with pIRHS := [] } = v
  rw [setIRHS_ext_eq]
  cases hc : cassert e.ndebug (w.reac.pSurfsys != 0) with
  | some err => rfl
  | none =>
    cases hq : SReac.pushChecked e w.reac.pModel [] v with
    | mk l r =>
      cases r with
      | some err => rfl
      | none => rfl

theorem setSRHS_frame {σ : Type} (e : Env σ) (a : VecRef) (w : World σ) :
    (SReac.setSRHS e a w).world
      = { w with reac := { w.reac with
            pSRHS := (SReac.setSRHS e a w).world.reac.pSRHS } } := by
  rw [setSRHS_read e a w]
  generalize a.read { w.reac with pSRHS := [] } = v
  rw [setSRHS_ext_eq]
  cases hc : cassert e.ndebug (w.reac.pSurfsys != 0) with
  | some err => rfl
  | none =>
    cases hq : SReac.pushChecked e w.reac.pModel [] v with
    | mk l r =>
      cases r with
      | some err => rfl
      | none => rfl

theorem setORHS_frame {σ : Type} (e : Env σ) (a : VecRef) (w : World σ) :
    (SReac.setORHS e a w).world
      = { w with reac := { w.reac with
            pORHS := (SReac.setORHS e a w).world.reac.pORHS } } := by
  rw [setORHS_read e a w]
  generalize a.read { w.reac with pORHS := [] } = v
  rw [setORHS_ext_eq]
  cases hc : cassert e.ndebug (w.reac.pSurfsys != 0) with
  | some err => rfl
  | none =>
    cases hq : SReac.pushChecked e w.reac.pModel [] v with
    | mk l r =>
      cases r with
      | some err => rfl
      | none => rfl

/-- C15: whatever its argument and its outcome, a vector setter leaves every
member of the reaction other than its own vector as it was, and the container
too; only `setVLHS` and `setSLHS` may also change the order, while `setIRHS`,
`setSRHS` and `setORHS` leave the order as it was. -/
theorem setters_frame {σ : Type} (e : Env σ) (a : VecRef) (w : World σ) :
    (SReac.setVLHS e a w).world
        = { w with reac := { w.reac with
              pVLHS := (SReac.setVLHS e a w).world.reac.pVLHS,
              pOrder := (SReac.setVLHS e a w).world.reac.pOrder } }
      ∧ (SReac.setSLHS e a w).world
        = { w with reac := { w.reac with
              pSLHS := (SReac.setSLHS e a w).world.reac.pSLHS,
              pOrder := (SReac.setSLHS e a w).world.reac.pOrder } }
      ∧ (SReac.setIRHS e a w).world
        = { w with reac := { w.reac with pIRHS := (SReac.setIRHS e a w).world.reac.pIRHS } }
      ∧ (SReac.setSRHS e a w).world
        = { w with reac := { w.reac with pSRHS := (SReac.setSRHS e a w).world.reac.pSRHS } }
      ∧ (SReac.setORHS e a w).world
        = { w with reac := { w.reac with pORHS := (SReac.setORHS e a w).world.reac.pORHS } } :=
  ⟨setVLHS_frame e a w, setSLHS_frame e a w, setIRHS_frame e a w, setSRHS_frame e a w,
    setORHS_frame e a w⟩

/-! ## Reactants come first -/

theorem getAllSpecs_reactants_first (r : SReac) :
    SReac.getAllSpecs r
      = firstOccurrenceDedup (r.pVLHS ++ r.pSLHS)
        ++ (firstOccurrenceDedup (r.pIRHS ++ r.pSRHS ++ r.pORHS)).filter
            (fun y => decide (y ∉ firstOccurrenceDedup (r.pVLHS ++ r.pSLHS))) := by
  have hX : SReac.addSpecs (SReac.addSpecs [] r.pVLHS) r.pSLHS
      = firstOccurrenceDedup (r.pVLHS ++ r.pSLHS) := by
    rw [← addSpecs_append, addSpecs_eq]
    simp
  unfold SReac.getAllSpecs SReac.getVLHS SReac.getSLHS SReac.getIRHS SReac.getSRHS SReac.getORHS
  rw [hX, ← addSpecs_append, ← addSpecs_append, addSpecs_eq]
  simp [List.append_assoc]

theorem indexOf_getAllSpecs_reactant (r : SReac) (x : Nat) (hx : x ∈ r.pVLHS ++ r.pSLHS) :
    (SReac.getAllSpecs r).indexOf x = (firstOccurrenceDedup (r.pVLHS ++ r.pSLHS)).indexOf x := by
  rw [getAllSpecs_reactants_first r]
  exact List.indexOf_append_of_mem ((mem_firstOccurrenceDedup x _).2 hx)

/-- C16: the first-occurrence deduplication of `VLHS ++ SLHS` is an initial
segment of `getAllSpecs()`; so the index of a reactant species in
`getAllSpecs()` depends on the reactant side only, and is the same after any
call of `setIRHS`, `setSRHS` or `setORHS`, whatever its outcome. -/
theorem reactant_indices_stable {σ : Type} (e : Env σ) (a : VecRef) (w : World σ) :
    firstOccurrenceDedup (w.reac.pVLHS ++ w.reac.pSLHS) <+: SReac.getAllSpecs w.reac
      ∧ (∀ x ∈ w.reac.pVLHS ++ w.reac.pSLHS,
          (SReac.getAllSpecs w.reac).indexOf x
              = (firstOccurrenceDedup (w.reac.pVLHS ++ w.reac.pSLHS)).indexOf x
            ∧ (SReac.getAllSpecs (SReac.setIRHS e a w).world.reac).indexOf x
              = (SReac.getAllSpecs w.reac).indexOf x
            ∧ (SReac.getAllSpecs (SReac.setSRHS e a w).world.reac).indexOf x
              = (SReac.getAllSpecs w.reac).indexOf x
            ∧ (SReac.getAllSpecs (SReac.setORHS e a w).world.reac).indexOf x
              = (SReac.getAllSpecs w.reac).indexOf x) := by
  refine ⟨⟨_, (getAllSpecs_reactants_first w.reac).symm⟩, ?_⟩
  intro x hx
  have h0 := indexOf_getAllSpecs_reactant w.reac x hx
  refine ⟨h0, ?_, ?_, ?_⟩
  · rw [h0, setIRHS_frame e a w]
    exact indexOf_getAllSpecs_reactant _ x hx
  · rw [h0, setSRHS_frame e a w]
    exact indexOf_getAllSpecs_reactant _ x hx
  · rw [h0, setORHS_frame e a w]
    exact indexOf_getAllSpecs_reactant _ x hx

/-- Witness for C16 on the sample reaction (`getAllSpecs` is `[101, 102, 103]`):
after `setIRHS [104, 102, 105]` species `102` is still at index 1. -/
theorem reactant_indices_stable_witness :
    SReac.getAllSpecs (sampleWorld false).reac = [101, 102, 103]
      ∧ SReac.getAllSpecs
          (SReac.setIRHS (sampleEnv false) (VecRef.ext [104, 102, 105])
            (sampleWorld false)).world.reac
          = [101, 102, 104, 105]
      ∧ (SReac.getAllSpecs
          (SReac.setIRHS (sampleEnv false) (VecRef.ext [104, 102, 105])
            (sampleWorld false)).world.reac).indexOf
            102
          = (SReac.getAllSpecs (sampleWorld false).reac).indexOf 102 :=
  ⟨by decide, by decide,
    ((reactant_indices_stable (sampleEnv false) (VecRef.ext [104, 102, 105])
      (sampleWorld false)).2 102
      (by decide)).2.1⟩

/-! ## Orientation -/

/-- C17: on a live reaction `setInner b` and `setOuter (not b)` have the same
outcome; `setOuter b` returns with the outer flag equal to `b` and every other
member, and the container, as before, and `setInner b` likewise with the flag
`not b`; and a construction that returns leaves the outer flag set. -/
theorem orientation_single_flag {σ : Type} (e : Env σ) (b : Bool) (w : World σ)
    (hlive : w.reac.pSurfsys ≠ 0) :
    SReac.setInner e b w = SReac.setOuter e (!b) w
      ∧ SReac.setOuter e b w = ⟨{ w with reac := { w.reac with pOuter := b } }, none⟩
      ∧ SReac.setInner e b w = ⟨{ w with reac := { w.reac with pOuter := !b } }, none⟩
      ∧ (SReac.setOuter e b w).world.reac.pOuter = b
      ∧ (∀ (id : String) (surfsys : Nat) (vlhs slhs irhs srhs orhs : List Nat) (kcst : Double)
          (c : σ), (SReac.SReac e id surfsys vlhs slhs irhs srhs orhs kcst c).raised = none →
          (SReac.SReac e id surfsys vlhs slhs irhs srhs orhs kcst c).world.reac.pOuter = true) := by
  have hc : cassert e.ndebug (w.reac.pSurfsys != 0) = none := by
    simp [cassert, hlive]
  refine ⟨?_, ?_, ?_, ?_, ?_⟩
  · simp [SReac.setInner, SReac.setOuter]
  · simp [SReac.setOuter, hc]
  · simp [SReac.setInner, hc]
  · simp [SReac.setOuter, hc]
  · intro id surfsys vlhs slhs irhs srhs orhs kcst c h
    rw [construct_returned_eq e id surfsys vlhs slhs irhs srhs orhs kcst c h]
    rfl

/-- Witness for C17 on the sample reaction, which is oriented outer:
`setInner true` clears the outer flag, as `setOuter false` does. -/
theorem orientation_single_flag_witness :
    (sampleWorld false).reac.pOuter = true
      ∧ SReac.setInner (sampleEnv false) true (sampleWorld false)
          = SReac.setOuter (sampleEnv false) (!true) (sampleWorld false)
      ∧ (SReac.setInner (sampleEnv false) true (sampleWorld false)).world.reac.pOuter = false :=
  ⟨by decide,
    (orientation_single_flag (sampleEnv false) true (sampleWorld false) (by decide)).1,
    by decide⟩

/-! ## Order of the constructor's checks -/

/-- C18: the constructor tests the container pointer first: with a null pointer
it raises the "No surfsys" `ArgErr`, whether or not the rate constant is below
zero as well; with a container and a rate constant below zero it raises the
rate-constant `ArgErr`.  In both cases it raises before the five vectors are
looked at: they are all empty in the object at that moment, the order is 0 and
the model pointer null, and the outcome is the same for any other five vectors. -/
theorem construct_check_order {σ : Type} (e : Env σ) (id : String) (surfsys : Nat)
    (vlhs slhs irhs srhs orhs : List Nat) (kcst : Double) (c : σ) :
    (surfsys = 0 →
        (SReac.SReac e id surfsys vlhs slhs irhs srhs orhs kcst c).raised
          = some (Err.ArgErr "No surfsys provided to SReac initializer function"))
      ∧ (surfsys ≠ 0 → Double.lt kcst Double.zero = true →
          (SReac.SReac e id surfsys vlhs slhs irhs srhs orhs kcst c).raised
            = some (Err.ArgErr "Surface reaction constant can't be negatove"))
      ∧ ((surfsys = 0 ∨ Double.lt kcst Double.zero = true) →
          (SReac.SReac e id surfsys vlhs slhs irhs srhs orhs kcst c).world
              = ⟨{ pID := id, pModel := 0, pSurfsys := surfsys, pOuter := true, pVLHS := [],
                   pSLHS := [], pIRHS := [], pSRHS := [], pORHS := [], pOrder := 0,
                   pKcst := kcst }, c⟩
            ∧ ∀ vlhs2 slhs2 irhs2 srhs2 orhs2 : List Nat,
                SReac.SReac e id surfsys vlhs2 slhs2 irhs2 srhs2 orhs2 kcst c
                  = SReac.SReac e id surfsys vlhs slhs irhs srhs orhs kcst c) := by
  refine ⟨?_, ?_, ?_⟩
  · intro hs
    simp [SReac.SReac, hs]
  · intro hs hk
    simp [SReac.SReac, hs, hk]
  · intro h
    by_cases hs : surfsys = 0
    · simp [SReac.SReac, hs]
    · have hk : Double.lt kcst Double.zero = true := by
        rcases h with h | h
        · exact absurd h hs
        · exact h
      simp [SReac.SReac, hs, hk]

/-- Witness for C18: no container and the rate constant `-1`, with a species of
another model in the first vector. -/
theorem construct_check_order_witness :
    (SReac.SReac (sampleEnv false) "R2" 0 [201] [] [] [] [] (Double.fin (-1)) ⟨[], 0⟩).raised
        = some (Err.ArgErr "No surfsys provided to SReac initializer function")
      ∧ (SReac.SReac (sampleEnv false) "R2" 7 [201] [] [] [] [] (Double.fin (-1)) ⟨[], 0⟩).raised
        = some (Err.ArgErr "Surface reaction constant can't be negatove")
      ∧ (SReac.SReac (sampleEnv false) "R2" 7 [201] [] [] [] [] (Double.fin (-1))
          ⟨[], 0⟩).world.reac.pVLHS = [] := by
  have h1 := (construct_check_order (sampleEnv false) "R2" 0 [201] [] [] [] []
    (Double.fin (-1)) ⟨[], 0⟩).1 rfl
  have h2 := (construct_check_order (sampleEnv false) "R2" 7 [201] [] [] [] []
    (Double.fin (-1)) ⟨[], 0⟩).2.1 (by decide) (by decide)
  have h3 := ((construct_check_order (sampleEnv false) "R2" 7 [201] [] [] [] []
    (Double.fin (-1)) ⟨[], 0⟩).2.2 (Or.inr (by decide))).1
  refine ⟨h1, h2, ?_⟩
  rw [h3]

/-! ## The schedule index -/

/-- C19: `schedIDX()` called after `setSchedIDX(i)` returns `i`; `schedIDX()`
leaves the process as it is; and `setSchedIDX(i)` changes the schedule index
only, the extent counter being as before. -/
theorem schedIDX_stored (i : Nat) (k : KProc) :
    (KProc.schedIDX (KProc.setSchedIDX i k)).1 = i
      ∧ (KProc.schedIDX k).2 = k
      ∧ (KProc.schedIDX k).1 = k.pSchedIDX
      ∧ (KProc.setSchedIDX i k).rExtent = k.rExtent
      ∧ KProc.setSchedIDX i k = ⟨k.rExtent, i⟩ :=
  ⟨rfl, rfl, rfl, rfl, rfl⟩

end Steps
